import Mathlib

/-!
Verification development for the Focus2 / Workmory activity-tracking pipeline.

The definitions below are a shallow embedding of the TypeScript sources:
  * `src/activity/core/Types.ts`        — data model
  * `src/activity/storage/ActivityStorage.ts` — `handleMayBeInactive`,
    `ActivityStorage.addHeartbeat`, `getDayData`, `cleanupOldData`,
    `updateStoragePath`
  * `StorageAdapter.ts`                 — `loadData`, `saveData`
  * `AggregationService.ts`             — cache, `getAggregatedData`,
    `setAggregationInterval`, `getDayDataWithAggregation`
  * `ActivityFacade.ts`                 — `getDayData` facade

Components whose source is not part of the repository snapshot
(`ActivityState`, `DateManager`, `TimelineGenerator`) are modelled from the
specification; their doc comments say so explicitly.
-/

/-! ## Data model (`src/activity/core/Types.ts`) -/

/-- `userActivity` discriminator of `HeartbeatData`. -/
inductive UserActivity where
  | active
  | inactive
  | may_be_inactive
deriving DecidableEq, Repr

/-- `AppWindowData` — `{ app: string; title: string }`. -/
structure AppWindowData where
  app : String
  title : String
deriving DecidableEq, Repr

/-- `HeartbeatData` — `{ userActivity, appWindow? }`. -/
structure HeartbeatData where
  userActivity : UserActivity
  appWindow : Option AppWindowData := none
deriving DecidableEq, Repr

/-- `Heartbeat` — `{ timestamp: ms-since-epoch, data: HeartbeatData }`.
Timestamps are embedded as `Int` (JS numbers used only at integral values). -/
structure Heartbeat where
  timestamp : Int
  data : HeartbeatData
deriving DecidableEq, Repr

/-! ## `handleMayBeInactive` (`ActivityStorage.ts` lines 40–93) -/

/-- The immutable replace performed at `ActivityStorage.ts:80-86`: a new
heartbeat with the same timestamp and data, only `userActivity` set to
`inactive`. -/
def promoteToInactive (hb : Heartbeat) : Heartbeat :=
  { hb with data := { hb.data with userActivity := .inactive } }

/-- The backward scan of `ActivityStorage.ts:56-67`: index of the last
heartbeat with `userActivity === 'active'` and `timestamp < t`
(`lastActiveIndex`), or `none` when there is none (`-1` in the source). -/
def findLastActiveBefore (t : Int) : List Heartbeat → Option Nat
  | [] => none
  | hb :: rest =>
    match findLastActiveBefore t rest with
    | some i => some (i + 1)
    | none =>
      if hb.timestamp < t ∧ hb.data.userActivity = .active then some 0 else none

/-- The forward rewrite loop of `ActivityStorage.ts:72-89` applied to the
suffix starting at `lastActiveIndex + 1`: walk forward, stop at the first
heartbeat with `timestamp ≥ t` (`break`), and promote every
`may_be_inactive` heartbeat encountered before that. -/
def rewriteUntil (t : Int) : List Heartbeat → List Heartbeat
  | [] => []
  | hb :: rest =>
    if t ≤ hb.timestamp then hb :: rest
    else
      (if hb.data.userActivity = .may_be_inactive then promoteToInactive hb else hb)
        :: rewriteUntil t rest

/-- `lastActiveIndex + 1`: the position at which the rewrite loop of
`ActivityStorage.ts:72` starts (`0` when no active heartbeat was found,
mirroring `lastActiveIndex = -1`). -/
def lastActiveCut (t : Int) (hbs : List Heartbeat) : Nat :=
  match findLastActiveBefore t hbs with
  | none => 0
  | some i => i + 1

/-- `handleMayBeInactive(heartbeats, currentTimestamp, heartbeatData)`
(`ActivityStorage.ts:40-93`).  Guard clauses: empty list or a trigger that is
not `inactive`, and absence of any `may_be_inactive` entry, return the input
unchanged.  Otherwise the suffix after `lastActiveIndex` is rewritten.  The
source's `changed` flag only decides whether the copied array or the original
is returned; both hold the same value, so the embedding ignores it. -/
def handleMayBeInactive (heartbeats : List Heartbeat) (currentTimestamp : Int)
    (heartbeatData : HeartbeatData) : List Heartbeat :=
  if heartbeats.isEmpty ∨ heartbeatData.userActivity ≠ .inactive then heartbeats
  else if ¬ heartbeats.any (fun hb => hb.data.userActivity = .may_be_inactive) then
    heartbeats
  else
    let k : Nat := lastActiveCut currentTimestamp heartbeats
    heartbeats.take k ++ rewriteUntil currentTimestamp (heartbeats.drop k)

/-- Day-level effect of `ActivityStorage.addHeartbeat`
(`ActivityStorage.ts:237-255`) on the heartbeat sequence of the target day:
apply the `may_be_inactive` correction when the new sample is `inactive`,
then append the new heartbeat. -/
def addHeartbeatList (heartbeats : List Heartbeat) (timestamp : Int)
    (heartbeatData : HeartbeatData) : List Heartbeat :=
  if heartbeatData.userActivity = .inactive then
    handleMayBeInactive heartbeats timestamp heartbeatData ++ [⟨timestamp, heartbeatData⟩]
  else
    heartbeats ++ [⟨timestamp, heartbeatData⟩]

/-! ### Basic lemmas about the correction -/

theorem rewriteUntil_length (t : Int) (l : List Heartbeat) :
    (rewriteUntil t l).length = l.length := by
  induction l with
  | nil => rfl
  | cons hb rest ih =>
    simp only [rewriteUntil]
    split
    · rfl
    · simpa using ih

theorem handleMayBeInactive_length (hbs : List Heartbeat) (t : Int)
    (d : HeartbeatData) : (handleMayBeInactive hbs t d).length = hbs.length := by
  unfold handleMayBeInactive
  split
  · rfl
  · split
    · rfl
    · simp [rewriteUntil_length]
      omega

/-- Elementwise frame property of the rewrite loop: every position is either
untouched or a `may_be_inactive` heartbeat promoted to `inactive`. -/
theorem rewriteUntil_getElem (t : Int) (l : List Heartbeat) (i : Nat)
    (hi : i < l.length) :
    (rewriteUntil t l)[i]? = some l[i] ∨
      (l[i].data.userActivity = .may_be_inactive ∧
        (rewriteUntil t l)[i]? = some (promoteToInactive l[i])) := by
  induction l generalizing i with
  | nil => simp at hi
  | cons hb rest ih =>
    simp only [rewriteUntil]
    split
    · left
      exact List.getElem?_eq_getElem hi
    · cases i with
      | zero =>
        by_cases hmb : hb.data.userActivity = .may_be_inactive
        · right
          refine ⟨hmb, ?_⟩
          simp [hmb]
        · left; simp [hmb]
      | succ j =>
        have hj : j < rest.length := by simpa using hi
        have := ih j hj
        simpa using this

theorem findLastActiveBefore_lt_length (t : Int) (l : List Heartbeat) (i : Nat)
    (h : findLastActiveBefore t l = some i) : i < l.length := by
  induction l generalizing i with
  | nil => simp [findLastActiveBefore] at h
  | cons hb rest ih =>
    cases hfa : findLastActiveBefore t rest with
    | some j =>
      simp only [findLastActiveBefore, hfa] at h
      cases h
      have := ih j hfa
      simp
      omega
    | none =>
      simp only [findLastActiveBefore, hfa] at h
      split at h
      · cases h; simp
      · cases h

theorem lastActiveCut_le_length (t : Int) (hbs : List Heartbeat) :
    lastActiveCut t hbs ≤ hbs.length := by
  unfold lastActiveCut
  cases hfa : findLastActiveBefore t hbs with
  | none => simp
  | some i => exact findLastActiveBefore_lt_length t hbs i hfa

/-- When none of the guard clauses fires, `handleMayBeInactive` rewrites the
suffix after the last active heartbeat. -/
theorem handleMayBeInactive_eq_of (hbs : List Heartbeat) (t : Int)
    (d : HeartbeatData) (hne : ¬ hbs.isEmpty) (hd : d.userActivity = .inactive)
    (hany : hbs.any (fun hb => hb.data.userActivity = .may_be_inactive)) :
    handleMayBeInactive hbs t d =
      hbs.take (lastActiveCut t hbs) ++
        rewriteUntil t (hbs.drop (lastActiveCut t hbs)) := by
  unfold handleMayBeInactive
  rw [if_neg (by simp [hne, hd]), if_neg (by simpa using hany)]

/-- The three cases of `handleMayBeInactive`: a guard clause returned the
input unchanged, or the suffix rewrite happened. -/
theorem handleMayBeInactive_cases (hbs : List Heartbeat) (t : Int)
    (d : HeartbeatData) :
    handleMayBeInactive hbs t d = hbs ∨
      handleMayBeInactive hbs t d =
        hbs.take (lastActiveCut t hbs) ++
          rewriteUntil t (hbs.drop (lastActiveCut t hbs)) := by
  unfold handleMayBeInactive
  split
  · left; rfl
  · split
    · left; rfl
    · right; rfl

/-- Elementwise frame property of the whole correction: every position is
either untouched or a `may_be_inactive` heartbeat promoted to `inactive`. -/
theorem handleMayBeInactive_getElem (hbs : List Heartbeat) (t : Int)
    (d : HeartbeatData) (i : Nat) (hi : i < hbs.length) :
    (handleMayBeInactive hbs t d)[i]? = some hbs[i] ∨
      (hbs[i].data.userActivity = .may_be_inactive ∧
        (handleMayBeInactive hbs t d)[i]? = some (promoteToInactive hbs[i])) := by
  rcases handleMayBeInactive_cases hbs t d with hcase | hcase
  · left
    rw [hcase]
    exact List.getElem?_eq_getElem hi
  · rw [hcase]
    set k := lastActiveCut t hbs with hk
    have hkle : k ≤ hbs.length := lastActiveCut_le_length t hbs
    have htklen : (hbs.take k).length = k := by simp; omega
    by_cases hik : i < k
    · left
      rw [List.getElem?_append, if_pos (by omega)]
      rw [show (hbs.take k)[i]? = hbs[i]? by simp [List.getElem?_take, hik]]
      exact List.getElem?_eq_getElem hi
    · rw [List.getElem?_append_right (by omega)]
      have hdroplen : i - k < (hbs.drop k).length := by simp; omega
      have hdropeq : (hbs.drop k)[i - k] = hbs[i] := by
        rw [List.getElem_drop]
        congr 1
        omega
      rcases rewriteUntil_getElem t (hbs.drop k) (i - k) hdroplen with h | ⟨hmb, h⟩
      · left
        rw [htklen] at *
        rw [h, hdropeq]
      · right
        rw [htklen] at *
        rw [hdropeq] at hmb h
        exact ⟨hmb, h⟩

/-- Positions at or before `lastActiveIndex` are never touched. -/
theorem handleMayBeInactive_prefix (hbs : List Heartbeat) (t : Int)
    (d : HeartbeatData) (i : Nat) (hik : i < lastActiveCut t hbs) :
    (handleMayBeInactive hbs t d)[i]? = hbs[i]? := by
  rcases handleMayBeInactive_cases hbs t d with hcase | hcase
  · rw [hcase]
  · rw [hcase]
    have hkle : lastActiveCut t hbs ≤ hbs.length := lastActiveCut_le_length t hbs
    have htklen : (hbs.take (lastActiveCut t hbs)).length = lastActiveCut t hbs := by
      simp
      omega
    rw [List.getElem?_append, if_pos (by omega)]
    simp [List.getElem?_take, hik]

/-- If every heartbeat up to position `i` lies strictly before `t`, the
rewrite loop reaches position `i` and promotes a `may_be_inactive` entry. -/
theorem rewriteUntil_promote (t : Int) (l : List Heartbeat) (i : Nat)
    (hi : i < l.length)
    (hpre : ∀ m, m ≤ i → ∀ hm : m < l.length, l[m].timestamp < t)
    (hmb : l[i].data.userActivity = .may_be_inactive) :
    (rewriteUntil t l)[i]? = some (promoteToInactive l[i]) := by
  induction l generalizing i with
  | nil => simp at hi
  | cons hb rest ih =>
    have h0 : hb.timestamp < t := by
      have := hpre 0 (Nat.zero_le _) (by simp)
      simpa using this
    simp only [rewriteUntil]
    rw [if_neg (by omega)]
    cases i with
    | zero =>
      have hhb : hb.data.userActivity = .may_be_inactive := by simpa using hmb
      simp [hhb]
    | succ j =>
      have hj : j < rest.length := by simpa using hi
      have hpre' : ∀ m, m ≤ j → ∀ hm : m < rest.length, rest[m].timestamp < t := by
        intro m hm hml
        have := hpre (m + 1) (by omega) (by simpa using Nat.succ_lt_succ hml)
        simpa using this
      have := ih j hj hpre' (by simpa using hmb)
      simpa using this

/-- The rewrite loop is idempotent. -/
theorem rewriteUntil_idem (t : Int) (l : List Heartbeat) :
    rewriteUntil t (rewriteUntil t l) = rewriteUntil t l := by
  induction l with
  | nil => rfl
  | cons hb rest ih =>
    simp only [rewriteUntil]
    split
    · rename_i hge
      simp only [rewriteUntil]
      rw [if_pos hge]
    · rename_i hlt
      by_cases hmb : hb.data.userActivity = .may_be_inactive
      · simp only [if_pos hmb]
        simp only [rewriteUntil, promoteToInactive]
        rw [if_neg hlt]
        simp [ih]
      · simp only [if_neg hmb]
        simp only [rewriteUntil]
        rw [if_neg hlt, if_neg hmb, ih]

/-- `findLastActiveBefore` only looks at timestamps and at whether an entry
is `active`; lists agreeing on those agree on the result. -/
theorem findLastActiveBefore_congr (t : Int) (l₁ l₂ : List Heartbeat)
    (hlen : l₁.length = l₂.length)
    (h : ∀ i, ∀ h₁ : i < l₁.length, ∀ h₂ : i < l₂.length,
      l₁[i].timestamp = l₂[i].timestamp ∧
        (l₁[i].data.userActivity = .active ↔ l₂[i].data.userActivity = .active)) :
    findLastActiveBefore t l₁ = findLastActiveBefore t l₂ := by
  induction l₁ generalizing l₂ with
  | nil =>
    cases l₂ with
    | nil => rfl
    | cons b l₂ => simp at hlen
  | cons a l₁ ih =>
    cases l₂ with
    | nil => simp at hlen
    | cons b l₂ =>
      have hlen' : l₁.length = l₂.length := by simpa using hlen
      have hrest : findLastActiveBefore t l₁ = findLastActiveBefore t l₂ := by
        apply ih l₂ hlen'
        intro i h₁ h₂
        have := h (i + 1) (by simpa using Nat.succ_lt_succ h₁)
          (by simpa using Nat.succ_lt_succ h₂)
        simpa using this
      have hhead := h 0 (by simp) (by simp)
      have hts : a.timestamp = b.timestamp := by simpa using hhead.1
      have hact : a.data.userActivity = .active ↔ b.data.userActivity = .active := by
        simpa using hhead.2
      simp only [findLastActiveBefore, hrest]
      cases findLastActiveBefore t l₂ with
      | some j => rfl
      | none =>
        by_cases hc : b.timestamp < t ∧ b.data.userActivity = .active
        · rw [if_pos ⟨by omega, hact.mpr hc.2⟩, if_pos hc]
        · rw [if_neg (by
            intro hc'
            exact hc ⟨by omega, hact.mp hc'.2⟩), if_neg hc]

/-- The correction preserves every timestamp and whether the entry is
`active`. -/
theorem handleMayBeInactive_preserves (hbs : List Heartbeat) (t : Int)
    (d : HeartbeatData) (i : Nat) (hi : i < hbs.length)
    (hi2 : i < (handleMayBeInactive hbs t d).length) :
    (handleMayBeInactive hbs t d)[i].timestamp = hbs[i].timestamp ∧
      ((handleMayBeInactive hbs t d)[i].data.userActivity = .active ↔
        hbs[i].data.userActivity = .active) := by
  rcases handleMayBeInactive_getElem hbs t d i hi with h | ⟨hmb, h⟩
  · rw [List.getElem?_eq_getElem hi2] at h
    have heq := Option.some.inj h
    rw [heq]
    exact ⟨rfl, Iff.rfl⟩
  · rw [List.getElem?_eq_getElem hi2] at h
    have heq := Option.some.inj h
    rw [heq]
    constructor
    · rfl
    · constructor
      · intro hcontra
        simp [promoteToInactive] at hcontra
      · intro hcontra
        rw [hmb] at hcontra
        cases hcontra

theorem handleMayBeInactive_idem (hbs : List Heartbeat) (t : Int)
    (d : HeartbeatData) :
    handleMayBeInactive (handleMayBeInactive hbs t d) t d =
      handleMayBeInactive hbs t d := by
  by_cases hg1 : hbs.isEmpty ∨ d.userActivity ≠ .inactive
  · have h1 : handleMayBeInactive hbs t d = hbs := by
      unfold handleMayBeInactive
      rw [if_pos hg1]
    rw [h1]
    exact h1
  · by_cases hg2 : hbs.any (fun hb => hb.data.userActivity = .may_be_inactive)
    · push_neg at hg1
      obtain ⟨hne, hd⟩ := hg1
      have hne' : ¬ hbs.isEmpty := by simp [hne]
      set k := lastActiveCut t hbs with hk
      have hkle : k ≤ hbs.length := lastActiveCut_le_length t hbs
      have hr : handleMayBeInactive hbs t d =
          hbs.take k ++ rewriteUntil t (hbs.drop k) :=
        handleMayBeInactive_eq_of hbs t d hne' hd hg2
      have hlenr : (handleMayBeInactive hbs t d).length = hbs.length :=
        handleMayBeInactive_length hbs t d
      have hner : ¬ (handleMayBeInactive hbs t d).isEmpty := by
        rw [List.isEmpty_iff_length_eq_zero, hlenr]
        rw [List.isEmpty_iff_length_eq_zero] at hne'
        exact hne'
      by_cases hany2 : (handleMayBeInactive hbs t d).any
          (fun hb => hb.data.userActivity = .may_be_inactive)
      · have hcongr : findLastActiveBefore t (handleMayBeInactive hbs t d) =
            findLastActiveBefore t hbs := by
          apply findLastActiveBefore_congr t _ hbs hlenr
          intro i h₁ h₂
          exact handleMayBeInactive_preserves hbs t d i h₂ h₁
        have hcut : lastActiveCut t (handleMayBeInactive hbs t d) = k := by
          rw [hk]
          unfold lastActiveCut
          rw [hcongr]
        have hr2 : handleMayBeInactive (handleMayBeInactive hbs t d) t d =
            (handleMayBeInactive hbs t d).take k ++
              rewriteUntil t ((handleMayBeInactive hbs t d).drop k) := by
          have h := handleMayBeInactive_eq_of (handleMayBeInactive hbs t d) t d
            hner hd hany2
          rwa [hcut] at h
        rw [hr2, hr]
        have htklen : (hbs.take k).length = k := by
          simp
          omega
        have hdrop : (hbs.take k ++ rewriteUntil t (hbs.drop k)).drop k =
            rewriteUntil t (hbs.drop k) := by
          have h := List.drop_left (hbs.take k) (rewriteUntil t (hbs.drop k))
          rwa [htklen] at h
        have htake : (hbs.take k ++ rewriteUntil t (hbs.drop k)).take k =
            hbs.take k := by
          rw [List.take_append_of_le_length (by omega)]
          simp [List.take_take]
        rw [hdrop, htake, rewriteUntil_idem]
      · set r := handleMayBeInactive hbs t d with hrdef
        unfold handleMayBeInactive
        rw [if_neg (show ¬(r.isEmpty ∨ d.userActivity ≠ .inactive) by
              push_neg
              exact ⟨by simpa using hner, hd⟩),
          if_pos hany2]
    · have h1 : handleMayBeInactive hbs t d = hbs := by
        unfold handleMayBeInactive
        rw [if_neg hg1, if_pos (by simpa using hg2)]
      rw [h1]
      exact h1

example :
    handleMayBeInactive
      [⟨0, ⟨.active, none⟩⟩, ⟨10, ⟨.may_be_inactive, none⟩⟩,
       ⟨20, ⟨.may_be_inactive, none⟩⟩] 30 ⟨.inactive, none⟩ =
      [⟨0, ⟨.active, none⟩⟩, ⟨10, ⟨.inactive, none⟩⟩, ⟨20, ⟨.inactive, none⟩⟩] := by
  decide

example :
    addHeartbeatList
      [⟨0, ⟨.active, none⟩⟩, ⟨10, ⟨.may_be_inactive, none⟩⟩] 30 ⟨.inactive, none⟩ =
      [⟨0, ⟨.active, none⟩⟩, ⟨10, ⟨.inactive, none⟩⟩, ⟨30, ⟨.inactive, none⟩⟩] := by
  decide

/-- Generic promotion lemma: in a timestamp-sorted sequence, any
`may_be_inactive` heartbeat lying strictly after the last active heartbeat
(before `t`) and strictly before `t` is promoted to `inactive`. -/
theorem handleMayBeInactive_promotes (hbs : List Heartbeat) (t : Int)
    (d : HeartbeatData) (i : Nat) (hb : Heartbeat)
    (hsorted : hbs.Pairwise fun a b => a.timestamp ≤ b.timestamp)
    (hd : d.userActivity = .inactive)
    (hget : hbs[i]? = some hb)
    (hmb : hb.data.userActivity = .may_be_inactive)
    (hts : hb.timestamp < t)
    (hafter : ∀ j, findLastActiveBefore t hbs = some j → j < i) :
    (handleMayBeInactive hbs t d)[i]? = some (promoteToInactive hb) := by
  rcases List.getElem?_eq_some.mp hget with ⟨hi, hbeq⟩
  have hne : ¬ hbs.isEmpty := by
    rw [List.isEmpty_iff_length_eq_zero]
    omega
  have hany : hbs.any (fun x => x.data.userActivity = .may_be_inactive) := by
    apply List.any_eq_true.mpr
    refine ⟨hbs[i], List.getElem_mem hi, ?_⟩
    rw [hbeq]
    simp [hmb]
  rw [handleMayBeInactive_eq_of hbs t d hne hd hany]
  set k := lastActiveCut t hbs with hk
  have hkle : k ≤ hbs.length := lastActiveCut_le_length t hbs
  have hki : k ≤ i := by
    rw [hk]
    unfold lastActiveCut
    cases hfa : findLastActiveBefore t hbs with
    | none => simp
    | some j =>
      show j + 1 ≤ i
      have := hafter j hfa
      omega
  have htklen : (hbs.take k).length = k := by
    simp
    omega
  rw [List.getElem?_append_right (by omega), htklen]
  have hdroplen : i - k < (hbs.drop k).length := by
    simp
    omega
  have hdropeq : (hbs.drop k)[i - k] = hbs[i] := by
    rw [List.getElem_drop]
    congr 1
    omega
  have hpre : ∀ m, m ≤ i - k → ∀ hm : m < (hbs.drop k).length,
      (hbs.drop k)[m].timestamp < t := by
    intro m hm hml
    rw [List.getElem_drop]
    have hkm : k + m < hbs.length := by
      simp at hml
      omega
    rcases Nat.lt_or_ge (k + m) i with hlt | hge
    · have := List.pairwise_iff_getElem.mp hsorted (k + m) i hkm hi hlt
      rw [hbeq] at this
      omega
    · have heqi : k + m = i := by omega
      have : hbs[k + m].timestamp = hb.timestamp := by
        rw [show hbs[k + m] = hbs[i] by congr 1, hbeq]
      omega
  have := rewriteUntil_promote t (hbs.drop k) (i - k) hdroplen hpre
    (by rw [hdropeq, hbeq]; exact hmb)
  rw [hdropeq, hbeq] at this
  exact this

/-- Concrete scenario of the spec: `[active@t0, may@t1, may@t2]` then
`addHeartbeat(inactive, t3)`. -/
theorem addHeartbeat_concrete_backfill (t0 t1 t2 t3 : Int)
    (d0 d1 d2 dI : HeartbeatData)
    (h0 : d0.userActivity = .active)
    (h1 : d1.userActivity = .may_be_inactive)
    (h2 : d2.userActivity = .may_be_inactive)
    (hI : dI.userActivity = .inactive)
    (ht01 : t0 < t1) (ht12 : t1 < t2) (ht23 : t2 < t3) :
    addHeartbeatList [⟨t0, d0⟩, ⟨t1, d1⟩, ⟨t2, d2⟩] t3 dI =
      [⟨t0, d0⟩, ⟨t1, { d1 with userActivity := .inactive }⟩,
       ⟨t2, { d2 with userActivity := .inactive }⟩, ⟨t3, dI⟩] := by
  have ht03 : t0 < t3 := by omega
  have ht13 : t1 < t3 := by omega
  have hn2 : ¬ t3 ≤ t2 := by omega
  have hn1 : ¬ t3 ≤ t1 := by omega
  simp [addHeartbeatList, hI, handleMayBeInactive, lastActiveCut,
    findLastActiveBefore, rewriteUntil, promoteToInactive, h0, h1, h2,
    ht03, ht13, hn1, hn2]

/-- **C1.** For heartbeats `[active@t0, may_be_inactive@t1, may_be_inactive@t2]`
with `t0<t1<t2<t3`, `addHeartbeat(inactive, t3)` rewrites the heartbeats at
`t1` and `t2` to `inactive`, leaves `t0` untouched and appends the new
`inactive` heartbeat; and in general (for a timestamp-sorted day) every
`may_be_inactive` heartbeat strictly after the last `active` heartbeat before
`t` and with timestamp `< t` is rewritten to `inactive`. -/
theorem claim_C1_addHeartbeat_backfill
    (t0 t1 t2 t3 : Int) (d0 d1 d2 dI : HeartbeatData)
    (h0 : d0.userActivity = .active)
    (h1 : d1.userActivity = .may_be_inactive)
    (h2 : d2.userActivity = .may_be_inactive)
    (hI : dI.userActivity = .inactive)
    (ht01 : t0 < t1) (ht12 : t1 < t2) (ht23 : t2 < t3)
    (hbs : List Heartbeat) (t : Int) (d : HeartbeatData) (i : Nat)
    (hb : Heartbeat)
    (hsorted : hbs.Pairwise fun a b => a.timestamp ≤ b.timestamp)
    (hd : d.userActivity = .inactive)
    (hget : hbs[i]? = some hb)
    (hmb : hb.data.userActivity = .may_be_inactive)
    (hts : hb.timestamp < t)
    (hafter : ∀ j, findLastActiveBefore t hbs = some j → j < i) :
    addHeartbeatList [⟨t0, d0⟩, ⟨t1, d1⟩, ⟨t2, d2⟩] t3 dI =
        [⟨t0, d0⟩, ⟨t1, { d1 with userActivity := .inactive }⟩,
         ⟨t2, { d2 with userActivity := .inactive }⟩, ⟨t3, dI⟩] ∧
      (handleMayBeInactive hbs t d)[i]? = some (promoteToInactive hb) :=
  ⟨addHeartbeat_concrete_backfill t0 t1 t2 t3 d0 d1 d2 dI h0 h1 h2 hI ht01 ht12 ht23,
   handleMayBeInactive_promotes hbs t d i hb hsorted hd hget hmb hts hafter⟩

theorem claim_C1_addHeartbeat_backfill_witness :
    addHeartbeatList
        [⟨0, ⟨.active, none⟩⟩, ⟨10, ⟨.may_be_inactive, none⟩⟩,
         ⟨20, ⟨.may_be_inactive, none⟩⟩] 30 ⟨.inactive, none⟩ =
        [⟨0, ⟨.active, none⟩⟩, ⟨10, ⟨.inactive, none⟩⟩, ⟨20, ⟨.inactive, none⟩⟩,
         ⟨30, ⟨.inactive, none⟩⟩] ∧
      (handleMayBeInactive
        [⟨0, ⟨.active, none⟩⟩, ⟨10, ⟨.may_be_inactive, none⟩⟩,
         ⟨20, ⟨.may_be_inactive, none⟩⟩] 30 ⟨.inactive, none⟩)[1]? =
        some (promoteToInactive ⟨10, ⟨.may_be_inactive, none⟩⟩) :=
  claim_C1_addHeartbeat_backfill 0 10 20 30
    ⟨.active, none⟩ ⟨.may_be_inactive, none⟩ ⟨.may_be_inactive, none⟩ ⟨.inactive, none⟩
    rfl rfl rfl rfl (by decide) (by decide) (by decide)
    [⟨0, ⟨.active, none⟩⟩, ⟨10, ⟨.may_be_inactive, none⟩⟩,
     ⟨20, ⟨.may_be_inactive, none⟩⟩] 30 ⟨.inactive, none⟩ 1
    ⟨10, ⟨.may_be_inactive, none⟩⟩
    (by decide) rfl (by decide) rfl (by decide)
    (by
      intro j hj
      rw [show findLastActiveBefore 30
          [⟨0, ⟨.active, none⟩⟩, ⟨10, ⟨.may_be_inactive, none⟩⟩,
           ⟨20, ⟨.may_be_inactive, none⟩⟩] = some 0 from by decide] at hj
      cases hj
      omega)

/-- **C2.** The correction preserves length and order, leaves every position
at or before the last `active` heartbeat (with timestamp before the trigger)
unchanged, and any position it does rewrite keeps its timestamp and
app-window data, only the `userActivity` tag changing to `inactive`. -/
theorem claim_C2_correction_frame (hbs : List Heartbeat) (t : Int)
    (d : HeartbeatData) (i : Nat) (hi : i < hbs.length)
    (p j : Nat) (hj : findLastActiveBefore t hbs = some j) (hpj : p ≤ j) :
    (handleMayBeInactive hbs t d).length = hbs.length ∧
      (handleMayBeInactive hbs t d)[p]? = hbs[p]? ∧
      ((handleMayBeInactive hbs t d)[i]? = some hbs[i] ∨
        (hbs[i].data.userActivity = .may_be_inactive ∧
          (handleMayBeInactive hbs t d)[i]? =
            some ⟨hbs[i].timestamp, .inactive, hbs[i].data.appWindow⟩)) := by
  refine ⟨handleMayBeInactive_length hbs t d, ?_, ?_⟩
  · apply handleMayBeInactive_prefix
    unfold lastActiveCut
    rw [hj]
    show p < j + 1
    omega
  · rcases handleMayBeInactive_getElem hbs t d i hi with h | ⟨hmb, h⟩
    · left; exact h
    · right
      exact ⟨hmb, h⟩

theorem claim_C2_correction_frame_witness :
    (handleMayBeInactive
        [⟨0, ⟨.active, none⟩⟩, ⟨10, ⟨.may_be_inactive, none⟩⟩,
         ⟨20, ⟨.may_be_inactive, none⟩⟩] 30 ⟨.inactive, none⟩).length =
        ([⟨0, ⟨.active, none⟩⟩, ⟨10, ⟨.may_be_inactive, none⟩⟩,
          ⟨20, ⟨.may_be_inactive, none⟩⟩] : List Heartbeat).length ∧
      (handleMayBeInactive
        [⟨0, ⟨.active, none⟩⟩, ⟨10, ⟨.may_be_inactive, none⟩⟩,
         ⟨20, ⟨.may_be_inactive, none⟩⟩] 30 ⟨.inactive, none⟩)[0]? =
        ([⟨0, ⟨.active, none⟩⟩, ⟨10, ⟨.may_be_inactive, none⟩⟩,
          ⟨20, ⟨.may_be_inactive, none⟩⟩] : List Heartbeat)[0]? ∧
      ((handleMayBeInactive
          [⟨0, ⟨.active, none⟩⟩, ⟨10, ⟨.may_be_inactive, none⟩⟩,
           ⟨20, ⟨.may_be_inactive, none⟩⟩] 30 ⟨.inactive, none⟩)[1]? =
          some (([⟨0, ⟨.active, none⟩⟩, ⟨10, ⟨.may_be_inactive, none⟩⟩,
            ⟨20, ⟨.may_be_inactive, none⟩⟩] : List Heartbeat)[1]) ∨
        (([⟨0, ⟨.active, none⟩⟩, ⟨10, ⟨.may_be_inactive, none⟩⟩,
            ⟨20, ⟨.may_be_inactive, none⟩⟩] :
              List Heartbeat)[1].data.userActivity = .may_be_inactive ∧
          (handleMayBeInactive
            [⟨0, ⟨.active, none⟩⟩, ⟨10, ⟨.may_be_inactive, none⟩⟩,
             ⟨20, ⟨.may_be_inactive, none⟩⟩] 30 ⟨.inactive, none⟩)[1]? =
            some ⟨([⟨0, ⟨.active, none⟩⟩, ⟨10, ⟨.may_be_inactive, none⟩⟩,
              ⟨20, ⟨.may_be_inactive, none⟩⟩] : List Heartbeat)[1].timestamp,
              .inactive,
              ([⟨0, ⟨.active, none⟩⟩, ⟨10, ⟨.may_be_inactive, none⟩⟩,
                ⟨20, ⟨.may_be_inactive, none⟩⟩] :
                  List Heartbeat)[1].data.appWindow⟩)) :=
  claim_C2_correction_frame
    [⟨0, ⟨.active, none⟩⟩, ⟨10, ⟨.may_be_inactive, none⟩⟩,
     ⟨20, ⟨.may_be_inactive, none⟩⟩] 30 ⟨.inactive, none⟩ 1 (by decide)
    0 0 (by decide) (by decide)

/-- **C3.** The `may_be_inactive` correction is idempotent: applying it twice
with the same timestamp and trigger data equals applying it once. -/
theorem claim_C3_correction_idempotent (hbs : List Heartbeat) (t : Int)
    (d : HeartbeatData) :
    handleMayBeInactive (handleMayBeInactive hbs t d) t d =
      handleMayBeInactive hbs t d :=
  handleMayBeInactive_idem hbs t d

/-! ## JSON values and the Persistence Adapter (`StorageAdapter.ts`) -/

/-- A parsed JSON document, as produced by `JSON.parse`.  Numbers occurring in
the store (timestamps, durations, version, interval) are integral, so `num`
carries an `Int`. -/
inductive JValue where
  | null
  | bool (b : Bool)
  | num (n : Int)
  | str (s : String)
  | arr (elems : List JValue)
  | obj (fields : List (String × JValue))

/-- JavaScript truthiness of a parsed JSON value (`NaN` cannot result from
`JSON.parse`). -/
def JValue.truthy : JValue → Bool
  | .null => false
  | .bool b => b
  | .num n => n != 0
  | .str s => s ≠ ""
  | .arr _ => true
  | .obj _ => true

/-- `typeof v === 'object'` for a parsed JSON value: true for `null`, arrays
and plain objects. -/
def JValue.isObjectType : JValue → Bool
  | .null => true
  | .arr _ => true
  | .obj _ => true
  | _ => false

def lookupField : List (String × JValue) → String → Option JValue
  | [], _ => none
  | (k, v) :: rest, key => if k = key then some v else lookupField rest key

/-- JS property access `v.key` on a parsed JSON value: defined on objects,
`undefined` (here `none`) on everything else (`JSON.parse` output has no
inherited properties of interest). -/
def JValue.getField (v : JValue) (key : String) : Option JValue :=
  match v with
  | .obj fields => lookupField fields key
  | _ => none

/-- Truthiness of a possibly-`undefined` JS value. -/
def jsTruthy : Option JValue → Bool
  | none => false
  | some v => v.truthy

/-- `StorageAdapter.validateStoreData` (`part_002:111-118`):
`!data.version || !data.days || typeof data.days !== 'object'` rejects. -/
def validateStoreData (data : JValue) : Bool :=
  jsTruthy (data.getField "version") &&
    jsTruthy (data.getField "days") &&
    (match data.getField "days" with
     | some d => d.isObjectType
     | none => false)

/-- State of the store file on disk, from the adapter's perspective:
missing, unreadable (`readFileSync` throws), unparsable (`JSON.parse`
throws), or readable with a parse result.  `mkdirSync` failures inside the
adapter's `try` blocks behave like `unreadable`. -/
inductive FileState where
  | missing
  | unreadable
  | invalidJson
  | parsed (v : JValue)

/-- `StorageAdapter.loadData` (`part_002:26-67`): soft-fails to `null` on an
empty path, a missing/unreadable/unparsable file, a falsy or non-object
parse result (`!parsedData || typeof parsedData !== 'object'`), or a parse
result rejected by `validateStoreData`. -/
def loadData (filePath : String) (file : FileState) : Option JValue :=
  if filePath = "" then none
  else
    match file with
    | .missing => none
    | .unreadable => none
    | .invalidJson => none
    | .parsed v =>
      if v.truthy && v.isObjectType then
        if validateStoreData v then some v else none
      else none

/-- `StorageAdapter.saveData` (`part_002:74-96`): fails on an empty path;
otherwise writes `JSON.stringify(data, null, 2)`.  `writeOk` models whether
the directory-creation/write I/O succeeds; on failure the file is unchanged
and `false` is returned.  The file afterwards parses back to exactly the
written document (`JSON.parse ∘ JSON.stringify` is the identity on parsed
JSON values). -/
def saveData (filePath : String) (data : JValue) (writeOk : Bool)
    (file : FileState) : Bool × FileState :=
  if filePath = "" then (false, file)
  else if writeOk then (true, .parsed data) else (false, file)

theorem validateStoreData_iff (v : JValue) :
    validateStoreData v = true ↔
      (jsTruthy (v.getField "version") = true ∧
        ∃ d, v.getField "days" = some d ∧ d.truthy = true ∧
          d.isObjectType = true) := by
  unfold validateStoreData
  cases hdays : v.getField "days" with
  | none => simp [jsTruthy, hdays]
  | some d =>
    simp only [hdays, Bool.and_eq_true]
    constructor
    · rintro ⟨⟨hv, hd⟩, hobj⟩
      exact ⟨hv, d, rfl, by simpa [jsTruthy] using hd, hobj⟩
    · rintro ⟨hv, d₂, hd₂, htr, hobj⟩
      cases hd₂
      exact ⟨⟨hv, by simpa [jsTruthy] using htr⟩, hobj⟩

/-! ## Persisted store model (`StoreData` of `Types.ts`) and serialization -/

/-- `DayData` as persisted: the heartbeat sequence plus the optional
`aggregated` blob.  The claims treat the `aggregated` payload opaquely, so it
is carried as its JSON document. -/
structure DayDataM where
  heartbeats : List Heartbeat
  aggregated : Option JValue := none

/-- `StoreData` (`Types.ts:62-68`). -/
structure StoreDataM where
  version : Int
  lastCleanupTime : Int
  startTime : Int
  aggregationInterval : Int
  days : List (String × DayDataM)

def encodeUserActivity : UserActivity → String
  | .active => "active"
  | .inactive => "inactive"
  | .may_be_inactive => "may_be_inactive"

def encodeHeartbeatData (d : HeartbeatData) : JValue :=
  .obj ([("userActivity", .str (encodeUserActivity d.userActivity))] ++
    (match d.appWindow with
     | none => []
     | some w => [("appWindow", .obj [("app", .str w.app), ("title", .str w.title)])]))

def encodeHeartbeat (hb : Heartbeat) : JValue :=
  .obj [("timestamp", .num hb.timestamp), ("data", encodeHeartbeatData hb.data)]

def encodeDayData (dd : DayDataM) : JValue :=
  .obj ([("heartbeats", .arr (dd.heartbeats.map encodeHeartbeat))] ++
    (match dd.aggregated with
     | none => []
     | some a => [("aggregated", a)]))

/-- The JSON document `JSON.stringify` produces for a `StoreData` (field
order as in the in-memory object; `undefined` optional fields omitted). -/
def encodeStoreData (s : StoreDataM) : JValue :=
  .obj [("version", .num s.version),
        ("lastCleanupTime", .num s.lastCleanupTime),
        ("startTime", .num s.startTime),
        ("aggregationInterval", .num s.aggregationInterval),
        ("days", .obj (s.days.map (fun kv => (kv.1, encodeDayData kv.2))))]

def decodeUserActivity : String → Option UserActivity
  | "active" => some .active
  | "inactive" => some .inactive
  | "may_be_inactive" => some .may_be_inactive
  | _ => none

def decodeAppWindow : JValue → Option AppWindowData
  | .obj fields =>
    match lookupField fields "app", lookupField fields "title" with
    | some (.str a), some (.str t) => some ⟨a, t⟩
    | _, _ => none
  | _ => none

def decodeHeartbeatData (v : JValue) : Option HeartbeatData :=
  match v.getField "userActivity" with
  | some (.str s) =>
    match decodeUserActivity s with
    | none => none
    | some ua =>
      match v.getField "appWindow" with
      | none => some ⟨ua, none⟩
      | some w =>
        match decodeAppWindow w with
        | none => none
        | some aw => some ⟨ua, some aw⟩
  | _ => none

def decodeHeartbeat (v : JValue) : Option Heartbeat :=
  match v.getField "timestamp", v.getField "data" with
  | some (.num ts), some dv =>
    match decodeHeartbeatData dv with
    | none => none
    | some d => some ⟨ts, d⟩
  | _, _ => none

def decodeHeartbeatList : List JValue → Option (List Heartbeat)
  | [] => some []
  | v :: rest =>
    match decodeHeartbeat v, decodeHeartbeatList rest with
    | some hb, some hbs => some (hb :: hbs)
    | _, _ => none

def decodeDayData (v : JValue) : Option DayDataM :=
  match v.getField "heartbeats" with
  | some (.arr hbs) =>
    match decodeHeartbeatList hbs with
    | none => none
    | some l => some ⟨l, v.getField "aggregated"⟩
  | _ => none

def decodeDays : List (String × JValue) → Option (List (String × DayDataM))
  | [] => some []
  | (k, v) :: rest =>
    match decodeDayData v, decodeDays rest with
    | some dd, some ds => some ((k, dd) :: ds)
    | _, _ => none

def decodeStoreData (v : JValue) : Option StoreDataM :=
  match v.getField "version", v.getField "lastCleanupTime",
      v.getField "startTime", v.getField "aggregationInterval",
      v.getField "days" with
  | some (.num ver), some (.num lct), some (.num st), some (.num ai),
      some (.obj ds) =>
    match decodeDays ds with
    | none => none
    | some days => some ⟨ver, lct, st, ai, days⟩
  | _, _, _, _, _ => none

theorem decode_encode_heartbeat (hb : Heartbeat) :
    decodeHeartbeat (encodeHeartbeat hb) = some hb := by
  obtain ⟨ts, ua, aw⟩ := hb
  cases aw with
  | none =>
    cases ua <;>
      simp [decodeHeartbeat, encodeHeartbeat, encodeHeartbeatData, JValue.getField,
        lookupField, decodeHeartbeatData, decodeUserActivity, encodeUserActivity]
  | some w =>
    cases ua <;>
      simp [decodeHeartbeat, encodeHeartbeat, encodeHeartbeatData, JValue.getField,
        lookupField, decodeHeartbeatData, decodeUserActivity, encodeUserActivity,
        decodeAppWindow]

theorem decode_encode_heartbeatList (l : List Heartbeat) :
    decodeHeartbeatList (l.map encodeHeartbeat) = some l := by
  induction l with
  | nil => rfl
  | cons hb rest ih =>
    simp [decodeHeartbeatList, decode_encode_heartbeat, ih]

theorem decode_encode_dayData (dd : DayDataM) :
    decodeDayData (encodeDayData dd) = some dd := by
  obtain ⟨hbs, agg⟩ := dd
  cases agg <;>
    simp [decodeDayData, encodeDayData, JValue.getField, lookupField,
      decode_encode_heartbeatList]

theorem decode_encode_days (ds : List (String × DayDataM)) :
    decodeDays (ds.map (fun kv => (kv.1, encodeDayData kv.2))) = some ds := by
  induction ds with
  | nil => rfl
  | cons kv rest ih =>
    simp [decodeDays, decode_encode_dayData, ih]

theorem decode_encode_storeData (s : StoreDataM) :
    decodeStoreData (encodeStoreData s) = some s := by
  obtain ⟨ver, lct, st, ai, days⟩ := s
  simp [decodeStoreData, encodeStoreData, JValue.getField, lookupField,
    decode_encode_days]

/-- **C7.** `loadData` soft-fails to `null` (never throws) on a missing,
unreadable or unparsable file, and accepts a parsed value exactly when it is
a truthy JS object with a present/truthy `version` field and a truthy
`days` field of JS type object; any accepted value is returned unchanged. -/
theorem claim_C7_loadData_validation (fp : String) (v : JValue)
    (hfp : fp ≠ "") :
    loadData fp .missing = none ∧
      loadData fp .unreadable = none ∧
      loadData fp .invalidJson = none ∧
      (loadData fp (.parsed v) = some v ↔
        (v.truthy = true ∧ v.isObjectType = true ∧
          jsTruthy (v.getField "version") = true ∧
          ∃ d, v.getField "days" = some d ∧ d.truthy = true ∧
            d.isObjectType = true)) ∧
      (loadData fp (.parsed v) = some v → ∃ fields, v = .obj fields) ∧
      (∀ w, loadData fp (.parsed v) = some w → w = v) := by
  have hiff : loadData fp (.parsed v) = some v ↔
      (v.truthy = true ∧ v.isObjectType = true ∧
        jsTruthy (v.getField "version") = true ∧
        ∃ d, v.getField "days" = some d ∧ d.truthy = true ∧
          d.isObjectType = true) := by
    constructor
    · intro h
      by_cases h1 : (v.truthy && v.isObjectType) = true
      · by_cases h2 : validateStoreData v = true
        · obtain ⟨hv, hobj⟩ : v.truthy = true ∧ v.isObjectType = true := by
            simpa using h1
          obtain ⟨hver, hdays⟩ := (validateStoreData_iff v).mp h2
          exact ⟨hv, hobj, hver, hdays⟩
        · simp [loadData, hfp, h1, h2] at h
      · simp [loadData, hfp, h1] at h
    · rintro ⟨hv, hobj, hver, d, hd, htr, hdobj⟩
      have h2 : validateStoreData v = true :=
        (validateStoreData_iff v).mpr ⟨hver, d, hd, htr, hdobj⟩
      simp [loadData, hfp, hv, hobj, h2]
  refine ⟨by simp [loadData, hfp], by simp [loadData, hfp],
    by simp [loadData, hfp], hiff, ?_, ?_⟩
  · intro h
    obtain ⟨_, _, hver, _⟩ := hiff.mp h
    cases v with
    | obj fields => exact ⟨fields, rfl⟩
    | null => simp [JValue.getField, jsTruthy] at hver
    | bool b => simp [JValue.getField, jsTruthy] at hver
    | num n => simp [JValue.getField, jsTruthy] at hver
    | str s => simp [JValue.getField, jsTruthy] at hver
    | arr elems => simp [JValue.getField, jsTruthy] at hver
  · intro w h
    unfold loadData at h
    rw [if_neg hfp] at h
    by_cases h1 : (v.truthy && v.isObjectType) = true
    · by_cases h2 : validateStoreData v = true
      · simp [h1, h2] at h
        exact h.symm
      · simp [h1, h2] at h
    · simp [h1] at h

theorem claim_C7_loadData_validation_witness :
    loadData "activity-store.json" .missing = none ∧
      loadData "activity-store.json" .unreadable = none ∧
      loadData "activity-store.json" .invalidJson = none ∧
      (loadData "activity-store.json"
          (.parsed (.obj [("version", .num 1), ("days", .obj [])])) =
          some (.obj [("version", .num 1), ("days", .obj [])]) ↔
        ((JValue.obj [("version", .num 1), ("days", .obj [])]).truthy = true ∧
          (JValue.obj [("version", .num 1), ("days", .obj [])]).isObjectType = true ∧
          jsTruthy ((JValue.obj [("version", .num 1),
            ("days", .obj [])]).getField "version") = true ∧
          ∃ d, (JValue.obj [("version", .num 1),
              ("days", .obj [])]).getField "days" = some d ∧
            d.truthy = true ∧ d.isObjectType = true)) ∧
      (loadData "activity-store.json"
          (.parsed (.obj [("version", .num 1), ("days", .obj [])])) =
          some (.obj [("version", .num 1), ("days", .obj [])]) →
        ∃ fields, JValue.obj [("version", .num 1), ("days", .obj [])] =
          .obj fields) ∧
      (∀ w, loadData "activity-store.json"
          (.parsed (.obj [("version", .num 1), ("days", .obj [])])) = some w →
        w = .obj [("version", .num 1), ("days", .obj [])]) :=
  claim_C7_loadData_validation "activity-store.json"
    (.obj [("version", .num 1), ("days", .obj [])]) (by decide)

/-- **C8.** Saving a valid store (truthy version; `days` an object by
construction) and loading it back from the same path yields the very same
store document: same day keys, heartbeats, aggregation interval and
timestamps (`decodeStoreData` recovers the original `StoreDataM`). -/
theorem claim_C8_save_load_roundtrip (fp : String) (s : StoreDataM)
    (f : FileState) (hfp : fp ≠ "") (hver : s.version ≠ 0) :
    (saveData fp (encodeStoreData s) true f).1 = true ∧
      loadData fp (saveData fp (encodeStoreData s) true f).2 =
        some (encodeStoreData s) ∧
      (decodeStoreData (encodeStoreData s) = some s) := by
  have hsave : saveData fp (encodeStoreData s) true f =
      (true, .parsed (encodeStoreData s)) := by
    simp [saveData, hfp]
  refine ⟨by rw [hsave], ?_, decode_encode_storeData s⟩
  rw [hsave]
  have hval : validateStoreData (encodeStoreData s) = true := by
    apply (validateStoreData_iff _).mpr
    constructor
    · simp [encodeStoreData, JValue.getField, lookupField, jsTruthy,
        JValue.truthy, hver]
    · refine ⟨.obj (s.days.map (fun kv => (kv.1, encodeDayData kv.2))), ?_, rfl, rfl⟩
      simp [encodeStoreData, JValue.getField, lookupField]
  have htr : JValue.truthy (encodeStoreData s) = true := rfl
  have hob : JValue.isObjectType (encodeStoreData s) = true := rfl
  have hcond : (JValue.truthy (encodeStoreData s) &&
      JValue.isObjectType (encodeStoreData s)) = true := by
    rw [htr, hob]
    rfl
  unfold loadData
  rw [if_neg hfp]
  show (if ((encodeStoreData s).truthy && (encodeStoreData s).isObjectType) = true
      then
        if validateStoreData (encodeStoreData s) = true then
          some (encodeStoreData s)
        else none
      else none) = some (encodeStoreData s)
  rw [if_pos hcond, if_pos hval]

theorem claim_C8_save_load_roundtrip_witness :
    (saveData "activity-store.json"
        (encodeStoreData ⟨1, 0, 0, 15,
          [("2026-10-11", ⟨[⟨0, ⟨.active, none⟩⟩], none⟩)]⟩) true .missing).1 =
        true ∧
      loadData "activity-store.json"
        (saveData "activity-store.json"
          (encodeStoreData ⟨1, 0, 0, 15,
            [("2026-10-11", ⟨[⟨0, ⟨.active, none⟩⟩], none⟩)]⟩) true .missing).2 =
        some (encodeStoreData ⟨1, 0, 0, 15,
          [("2026-10-11", ⟨[⟨0, ⟨.active, none⟩⟩], none⟩)]⟩) ∧
      decodeStoreData (encodeStoreData ⟨1, 0, 0, 15,
          [("2026-10-11", ⟨[⟨0, ⟨.active, none⟩⟩], none⟩)]⟩) =
        some ⟨1, 0, 0, 15, [("2026-10-11", ⟨[⟨0, ⟨.active, none⟩⟩], none⟩)]⟩ :=
  claim_C8_save_load_roundtrip "activity-store.json"
    ⟨1, 0, 0, 15, [("2026-10-11", ⟨[⟨0, ⟨.active, none⟩⟩], none⟩)]⟩ .missing
    (by decide) (by decide)

/-! ## Storage Manager state (`ActivityStorage.ts`) -/

/-- Association-list lookup, the embedding of JS object / `Map` key access
for string-keyed collections. -/
def assocLookup {β : Type} : List (String × β) → String → Option β
  | [], _ => none
  | (k, v) :: rest, key => if k = key then some v else assocLookup rest key

/-- JS `a || b` for an optional string argument: `undefined`, `null` and the
empty string all fall through to the default. -/
def jsOrElseKey (dateKey : Option String) (today : String) : String :=
  match dateKey with
  | none => today
  | some s => if s = "" then today else s

def isDigitChar (c : Char) : Bool := '0' ≤ c && c ≤ '9'

/-- The regex `^\d{4}-\d{2}-\d{2}$` of `ActivityStorage.getDayData`
(`ActivityStorage.ts:198`). -/
def isValidDateKeyFormat (s : String) : Bool :=
  match s.data with
  | [y1, y2, y3, y4, s1, m1, m2, s2, d1, d2] =>
    isDigitChar y1 && isDigitChar y2 && isDigitChar y3 && isDigitChar y4 &&
      (s1 == '-') && isDigitChar m1 && isDigitChar m2 && (s2 == '-') &&
      isDigitChar d1 && isDigitChar d2
  | _ => false

/-- The `DayData` object built by `ActivityStorage.getDayData`
(`{ heartbeats }`, no aggregation). -/
structure DayDataOut where
  heartbeats : List Heartbeat
deriving DecidableEq

/-- `ActivityStorage.getDayData` (`ActivityStorage.ts:193-218`).  The store
content is a `StoreDataM`; `todayKey` is `dateManager.getDateKey(Date.now())`
(the `DateManager` source is absent; per the spec it renders the current
local day as `YYYY-MM-DD`, so it enters here as a value).  Heartbeat lookup
(`activityState.getHeartbeats`) is modelled from the spec: the stored
sequence of the day, absent when the day has no entry. -/
def getDayData (st : StoreDataM) (todayKey : String)
    (dateKey : Option String) : Option DayDataOut :=
  let targetDateKey := jsOrElseKey dateKey todayKey
  if ¬ isValidDateKeyFormat targetDateKey then none
  else
    match assocLookup st.days targetDateKey with
    | none => if targetDateKey = todayKey then some ⟨[]⟩ else none
    | some dd =>
      if dd.heartbeats.isEmpty then
        if targetDateKey = todayKey then some ⟨[]⟩ else none
      else some ⟨dd.heartbeats⟩

def isLeapYear (y : Nat) : Bool :=
  (y % 4 == 0 && y % 100 != 0) || y % 400 == 0

def daysInMonth (y m : Nat) : Nat :=
  if m = 2 then (if isLeapYear y then 29 else 28)
  else if m = 4 ∨ m = 6 ∨ m = 9 ∨ m = 11 then 30
  else 31

/-- Days between the proleptic-Gregorian date and the Unix epoch, via the
Julian-day-number formula (valid for all `0 ≤ y ≤ 9999`). -/
def daysFromCivil (y m d : Nat) : Int :=
  let a : Nat := (14 - m) / 12
  let y2 : Nat := y + 4800 - a
  let m2 : Nat := m + 12 * a - 3
  let jdn : Nat :=
    d + (153 * m2 + 2) / 5 + 365 * y2 + y2 / 4 - y2 / 100 + y2 / 400 - 32045
  (jdn : Int) - 2440588

def digitVal (c : Char) : Nat := c.toNat - 48

/-- `Date.parse(dateKey + 'T00:00:00Z')` (`ActivityStorage.ts:330`) for the
keys reaching `getDatesOlderThan`: the UTC-midnight timestamp of a
well-formed ISO calendar date, `none` for anything `Date.parse` rejects
(`NaN`). -/
def dateKeyToUtcMidnightMs (s : String) : Option Int :=
  match s.data with
  | [y1, y2, y3, y4, s1, m1, m2, s2, d1, d2] =>
    if isDigitChar y1 && isDigitChar y2 && isDigitChar y3 && isDigitChar y4 &&
        (s1 == '-') && isDigitChar m1 && isDigitChar m2 && (s2 == '-') &&
        isDigitChar d1 && isDigitChar d2 then
      let y := digitVal y1 * 1000 + digitVal y2 * 100 + digitVal y3 * 10 + digitVal y4
      let m := digitVal m1 * 10 + digitVal m2
      let d := digitVal d1 * 10 + digitVal d2
      if 1 ≤ m ∧ m ≤ 12 ∧ 1 ≤ d ∧ d ≤ daysInMonth y m then
        some (daysFromCivil y m d * 86400000)
      else none
    else none
  | _ => none

/-- State of an `ActivityStorage` instance as far as `cleanupOldData` is
concerned: the options flag, the in-memory store (`ActivityState` content)
and the last snapshot written to disk by `saveToDisk` (a successful write is
assumed; a failed write is caught and ignored by the source). -/
structure StorageState where
  useMockData : Bool
  store : StoreDataM
  disk : Option StoreDataM

def oneDayMs : Int := 24 * 60 * 60 * 1000

/-- `ActivityStorage.getDatesOlderThan` (`ActivityStorage.ts:326-339`):
stored day keys whose UTC-midnight timestamp is strictly below the
threshold; unparsable keys are skipped. -/
def getDatesOlderThan (st : StoreDataM) (timestampThreshold : Int) :
    List String :=
  (st.days.map Prod.fst).filter fun k =>
    match dateKeyToUtcMidnightMs k with
    | some ts => ts < timestampThreshold
    | none => false

/-- `ActivityStorage.cleanupOldData` (`ActivityStorage.ts:282-320`).
`updateLastCleanupTime` and `deleteDay` of the absent `ActivityState` are
modelled from the spec (set the cleanup time to now; drop the day's entry).
Whether or not any dates qualify, the cleanup time is updated and the store
saved. -/
def cleanupOldData (s : StorageState) (now : Int) : StorageState :=
  if s.useMockData then s
  else if s.store.lastCleanupTime > now - oneDayMs then s
  else
    let thirtyDaysAgoTimestamp := now - 30 * oneDayMs
    let datesToDelete := getDatesOlderThan s.store thirtyDaysAgoTimestamp
    let newStore : StoreDataM :=
      { s.store with
          days := s.store.days.filter (fun kv => ! datesToDelete.contains kv.1),
          lastCleanupTime := now }
    { s with store := newStore, disk := some newStore }

/-- **C5 counterexample.** `getDayData` with the empty-string key: the key
does not match `YYYY-MM-DD`, yet the result is not `null` — the JS
`dateKey || today` falsiness fallback replaces `""` by today's key first. -/
theorem claim_C5_counterexample :
    isValidDateKeyFormat "" = false ∧
      getDayData ⟨1, 0, 0, 15, []⟩ "2026-10-11" (some "") = some ⟨[]⟩ := by
  constructor
  · rfl
  · decide

/-- **C5 (amended).** A present non-empty key that does not match
`YYYY-MM-DD` yields `null`; an empty-string key is falsy in JS and falls
back to today's key exactly like a missing argument; a well-formed non-today
key with no stored heartbeats yields `null`; today's key with no stored
heartbeats yields a `DayData` with an empty heartbeat list; a missing key
argument defaults to today's key. -/
theorem claim_C5_getDayData_keys
    (st : StoreDataM) (today k : String)
    (hk : k ≠ "") (hkbad : isValidDateKeyFormat k = false)
    (st2 : StoreDataM) (today2 k2 : String)
    (hfmt2 : isValidDateKeyFormat k2 = true) (hk2 : k2 ≠ today2)
    (hempty2 : assocLookup st2.days k2 = none ∨
      ∃ dd, assocLookup st2.days k2 = some dd ∧ dd.heartbeats = [])
    (st3 : StoreDataM) (today3 : String)
    (hfmt3 : isValidDateKeyFormat today3 = true)
    (hempty3 : assocLookup st3.days today3 = none ∨
      ∃ dd, assocLookup st3.days today3 = some dd ∧ dd.heartbeats = [])
    (st4 : StoreDataM) (today4 : String) :
    getDayData st today (some k) = none ∧
      getDayData st2 today2 (some k2) = none ∧
      getDayData st3 today3 none = some ⟨[]⟩ ∧
      getDayData st4 today4 none = getDayData st4 today4 (some today4) ∧
      getDayData st4 today4 (some "") = getDayData st4 today4 none := by
  refine ⟨?_, ?_, ?_, ?_, ?_⟩
  · simp [getDayData, jsOrElseKey, hk, hkbad]
  · have hk2ne : k2 ≠ "" := by
      intro h
      rw [h] at hfmt2
      exact absurd hfmt2 (by decide)
    rcases hempty2 with hnone | ⟨dd, hdd, hhb⟩
    · simp [getDayData, jsOrElseKey, hfmt2, hnone, hk2, hk2ne]
    · simp [getDayData, jsOrElseKey, hfmt2, hdd, hhb, hk2, hk2ne]
  · rcases hempty3 with hnone | ⟨dd, hdd, hhb⟩
    · simp [getDayData, jsOrElseKey, hfmt3, hnone]
    · simp [getDayData, jsOrElseKey, hfmt3, hdd, hhb]
  · simp [getDayData, jsOrElseKey]
  · simp [getDayData, jsOrElseKey]

theorem claim_C5_getDayData_keys_witness :
    getDayData ⟨1, 0, 0, 15, []⟩ "2026-10-11" (some "hello") = none ∧
      getDayData ⟨1, 0, 0, 15, []⟩ "2026-10-11" (some "2020-01-01") = none ∧
      getDayData ⟨1, 0, 0, 15, []⟩ "2026-10-11" none = some ⟨[]⟩ ∧
      getDayData ⟨1, 0, 0, 15, []⟩ "2026-10-11" none =
        getDayData ⟨1, 0, 0, 15, []⟩ "2026-10-11" (some "2026-10-11") ∧
      getDayData ⟨1, 0, 0, 15, []⟩ "2026-10-11" (some "") =
        getDayData ⟨1, 0, 0, 15, []⟩ "2026-10-11" none :=
  claim_C5_getDayData_keys ⟨1, 0, 0, 15, []⟩ "2026-10-11" "hello"
    (by decide) (by decide)
    ⟨1, 0, 0, 15, []⟩ "2026-10-11" "2020-01-01" (by decide) (by decide)
    (Or.inl rfl)
    ⟨1, 0, 0, 15, []⟩ "2026-10-11" (by decide) (Or.inl rfl)
    ⟨1, 0, 0, 15, []⟩ "2026-10-11"

theorem cleanup_mem_days_iff (s : StorageState) (now : Int)
    (hmock : s.useMockData = false)
    (hdue : ¬ s.store.lastCleanupTime > now - oneDayMs)
    (kv : String × DayDataM) (hkv : kv ∈ s.store.days) :
    kv ∈ (cleanupOldData s now).store.days ↔
      ¬ ∃ ts, dateKeyToUtcMidnightMs kv.1 = some ts ∧
        ts < now - 30 * oneDayMs := by
  unfold cleanupOldData
  rw [if_neg (by simp [hmock]), if_neg hdue]
  simp only [List.mem_filter]
  have hmem : kv.1 ∈ s.store.days.map Prod.fst :=
    List.mem_map_of_mem Prod.fst hkv
  constructor
  · rintro ⟨_, hp⟩ ⟨ts, hts, hlt⟩
    simp only [Bool.not_eq_true', getDatesOlderThan] at hp
    have : kv.1 ∈ (s.store.days.map Prod.fst).filter fun k =>
        match dateKeyToUtcMidnightMs k with
        | some ts => ts < now - 30 * oneDayMs
        | none => false := by
      rw [List.mem_filter]
      refine ⟨hmem, ?_⟩
      rw [hts]
      simp [hlt]
    simp [this] at hp
  · intro hno
    refine ⟨hkv, ?_⟩
    simp only [Bool.not_eq_true', getDatesOlderThan]
    have : ¬ kv.1 ∈ (s.store.days.map Prod.fst).filter fun k =>
        match dateKeyToUtcMidnightMs k with
        | some ts => ts < now - 30 * oneDayMs
        | none => false := by
      rw [List.mem_filter]
      rintro ⟨_, hp⟩
      cases hts : dateKeyToUtcMidnightMs kv.1 with
      | none => rw [hts] at hp; simp at hp
      | some ts =>
        rw [hts] at hp
        simp at hp
        exact hno ⟨ts, hts, hp⟩
    simpa using this

/-- **C6.** `cleanupOldData` is a no-op under mock data or within 24h of the
last cleanup; when the scan runs it deletes exactly the stored days whose
UTC-midnight timestamp is strictly before `now - 30 days`, always sets
`lastCleanupTime := now` and persists the store, even when nothing was
deleted; a second call within the same rolling 24h window is a no-op. -/
theorem claim_C6_cleanup_schedule
    (sA : StorageState) (nowA : Int) (hA : sA.useMockData = true)
    (sB : StorageState) (nowB : Int)
    (hB : sB.store.lastCleanupTime > nowB - oneDayMs)
    (s : StorageState) (now now2 : Int)
    (hmock : s.useMockData = false)
    (hdue : ¬ s.store.lastCleanupTime > now - oneDayMs)
    (kv : String × DayDataM) (hkv : kv ∈ s.store.days)
    (h2a : now ≤ now2) (h2b : now2 < now + oneDayMs) :
    cleanupOldData sA nowA = sA ∧
      cleanupOldData sB nowB = sB ∧
      (kv ∈ (cleanupOldData s now).store.days ↔
        ¬ ∃ ts, dateKeyToUtcMidnightMs kv.1 = some ts ∧
          ts < now - 30 * oneDayMs) ∧
      (cleanupOldData s now).store.lastCleanupTime = now ∧
      (cleanupOldData s now).disk = some (cleanupOldData s now).store ∧
      cleanupOldData (cleanupOldData s now) now2 = cleanupOldData s now := by
  have hclean : cleanupOldData s now =
      { s with
          store :=
            { s.store with
                days := s.store.days.filter (fun kv =>
                  ! (getDatesOlderThan s.store (now - 30 * oneDayMs)).contains kv.1),
                lastCleanupTime := now },
          disk := some
            { s.store with
                days := s.store.days.filter (fun kv =>
                  ! (getDatesOlderThan s.store (now - 30 * oneDayMs)).contains kv.1),
                lastCleanupTime := now } } := by
    unfold cleanupOldData
    rw [if_neg (by simp [hmock]), if_neg hdue]
  refine ⟨by simp [cleanupOldData, hA], ?_,
    cleanup_mem_days_iff s now hmock hdue kv hkv, ?_, ?_, ?_⟩
  · unfold cleanupOldData
    by_cases hBm : sB.useMockData = true
    · rw [if_pos hBm]
    · rw [if_neg hBm, if_pos hB]
  · rw [hclean]
  · rw [hclean]
  · have hmock2 : (cleanupOldData s now).useMockData = false := by
      rw [hclean]
      exact hmock
    have hlct2 : (cleanupOldData s now).store.lastCleanupTime = now := by
      rw [hclean]
    set c := cleanupOldData s now with hc
    unfold cleanupOldData
    rw [if_neg (by simp [hmock2]), if_pos (by rw [hlct2]; omega)]

theorem claim_C6_cleanup_schedule_witness :
    cleanupOldData ⟨true, ⟨1, 0, 0, 15, []⟩, none⟩ 1760000000000 =
        ⟨true, ⟨1, 0, 0, 15, []⟩, none⟩ ∧
      cleanupOldData ⟨false, ⟨1, 1759999999999, 0, 15, []⟩, none⟩ 1760000000000 =
        ⟨false, ⟨1, 1759999999999, 0, 15, []⟩, none⟩ ∧
      (("2020-01-01", (⟨[⟨0, ⟨.active, none⟩⟩], none⟩ : DayDataM)) ∈
          (cleanupOldData ⟨false, ⟨1, 0, 0, 15,
            [("2020-01-01", ⟨[⟨0, ⟨.active, none⟩⟩], none⟩),
             ("2099-01-01", ⟨[], none⟩)]⟩, none⟩ 1760000000000).store.days ↔
        ¬ ∃ ts, dateKeyToUtcMidnightMs "2020-01-01" = some ts ∧
          ts < 1760000000000 - 30 * oneDayMs) ∧
      (cleanupOldData ⟨false, ⟨1, 0, 0, 15,
        [("2020-01-01", ⟨[⟨0, ⟨.active, none⟩⟩], none⟩),
         ("2099-01-01", ⟨[], none⟩)]⟩, none⟩
          1760000000000).store.lastCleanupTime = 1760000000000 ∧
      (cleanupOldData ⟨false, ⟨1, 0, 0, 15,
        [("2020-01-01", ⟨[⟨0, ⟨.active, none⟩⟩], none⟩),
         ("2099-01-01", ⟨[], none⟩)]⟩, none⟩ 1760000000000).disk =
        some (cleanupOldData ⟨false, ⟨1, 0, 0, 15,
          [("2020-01-01", ⟨[⟨0, ⟨.active, none⟩⟩], none⟩),
           ("2099-01-01", ⟨[], none⟩)]⟩, none⟩ 1760000000000).store ∧
      cleanupOldData (cleanupOldData ⟨false, ⟨1, 0, 0, 15,
        [("2020-01-01", ⟨[⟨0, ⟨.active, none⟩⟩], none⟩),
         ("2099-01-01", ⟨[], none⟩)]⟩, none⟩ 1760000000000) 1760000086400 =
        cleanupOldData ⟨false, ⟨1, 0, 0, 15,
          [("2020-01-01", ⟨[⟨0, ⟨.active, none⟩⟩], none⟩),
           ("2099-01-01", ⟨[], none⟩)]⟩, none⟩ 1760000000000 :=
  claim_C6_cleanup_schedule
    ⟨true, ⟨1, 0, 0, 15, []⟩, none⟩ 1760000000000 rfl
    ⟨false, ⟨1, 1759999999999, 0, 15, []⟩, none⟩ 1760000000000 (by decide)
    ⟨false, ⟨1, 0, 0, 15,
      [("2020-01-01", ⟨[⟨0, ⟨.active, none⟩⟩], none⟩),
       ("2099-01-01", ⟨[], none⟩)]⟩, none⟩
    1760000000000 1760000086400 rfl (by decide)
    ("2020-01-01", ⟨[⟨0, ⟨.active, none⟩⟩], none⟩)
    (List.mem_cons_self _ _) (by decide) (by decide)

/-! ## Timeline Aggregator and Aggregation Service (`AggregationService.ts`) -/

/-- Classification of a heartbeat for aggregation.  Modelled from the spec:
the `TimelineGenerator` source is absent.  Per spec §4.4(3): `inactive`
produces an inactive event; `may_be_inactive` counts as active-equivalent;
otherwise the app-window payload (possibly absent) discriminates.  The
repository's `HeartbeatData` carries no meeting flag, so no meeting class
arises. -/
inductive EventClass where
  | inactiveEv
  | appWindowEv (w : Option AppWindowData)
deriving DecidableEq

def classify (hb : Heartbeat) : EventClass :=
  if hb.data.userActivity = .inactive then .inactiveEv
  else .appWindowEv hb.data.appWindow

/-- A merged timeline span (`TimelineEvent` of `Types.ts`, with the
`type`/`data` pair carried as its classification). -/
structure TimelineEventM where
  timestamp : Int
  duration : Int
  eventClass : EventClass
deriving DecidableEq

/-- Modelled from the spec: `TimelineGenerator.generateTimelineEvents`
(§4.4 steps 1–2) — merge consecutive heartbeats of equal classification into
one event starting at the run's first timestamp, its duration the covered
span extended by one nominal interval past the run's last sample. -/
def genRun (intervalMin : Int) (cls : EventClass) (start last : Int) :
    List Heartbeat → List TimelineEventM
  | [] => [⟨start, last - start + intervalMin * 60000, cls⟩]
  | hb :: rest =>
    if classify hb = cls then genRun intervalMin cls start hb.timestamp rest
    else ⟨start, last - start + intervalMin * 60000, cls⟩ ::
      genRun intervalMin (classify hb) hb.timestamp hb.timestamp rest

def generateTimelineEvents (intervalMin : Int) :
    List Heartbeat → List TimelineEventM
  | [] => []
  | hb :: rest => genRun intervalMin (classify hb) hb.timestamp hb.timestamp rest

/-- `AggregationSummary` (`Types.ts:41-47`); `appUsage` as an association
list. -/
structure AggregationSummaryM where
  activeTrackingDuration : Int
  totalActiveDuration : Int
  totalInactiveDuration : Int
  totalMeetingDuration : Int
  appUsage : List (String × Int)
deriving DecidableEq

def addAppUsage : List (String × Int) → String → Int → List (String × Int)
  | [], app, dur => [(app, dur)]
  | (a, d) :: rest, app, dur =>
    if a = app then (a, d + dur) :: rest else (a, d) :: addAppUsage rest app dur

/-- Modelled from the spec: `TimelineGenerator.calculateSummary` (§4.4
step 4) — sum durations by event type; `activeTrackingDuration` is the sum
over all events; `appUsage` accumulates per app name. -/
def calculateSummary (events : List TimelineEventM) : AggregationSummaryM :=
  events.foldl
    (fun acc ev =>
      match ev.eventClass with
      | .inactiveEv =>
        { acc with
            activeTrackingDuration := acc.activeTrackingDuration + ev.duration,
            totalInactiveDuration := acc.totalInactiveDuration + ev.duration }
      | .appWindowEv w =>
        { acc with
            activeTrackingDuration := acc.activeTrackingDuration + ev.duration,
            totalActiveDuration := acc.totalActiveDuration + ev.duration,
            appUsage :=
              match w with
              | some aw => addAppUsage acc.appUsage aw.app ev.duration
              | none => acc.appUsage })
    ⟨0, 0, 0, 0, []⟩

/-- The cached per-day aggregation (`AggregatedData` of
`AggregationService.ts:95-104`). -/
structure AggregatedDataM where
  summary : AggregationSummaryM
  timelineEvents : List TimelineEventM
deriving DecidableEq

/-- The zero summary built by `AggregationService.getAggregatedData` on a
cache miss (`AggregationService.ts:214-220`). -/
def zeroSummary : AggregationSummaryM := ⟨0, 0, 0, 0, []⟩

/-- Mutable state of an `AggregationService` together with its injected
`TimelineGenerator`: the generator's `aggregationInterval` and the cache
map. -/
structure AggServiceState where
  interval : Int
  cache : List (String × AggregatedDataM)

/-- JS `Map.set`: replace an existing entry, else append. -/
def cacheSet (c : List (String × AggregatedDataM)) (k : String)
    (v : AggregatedDataM) : List (String × AggregatedDataM) :=
  if (assocLookup c k).isSome then
    c.map (fun kv => if kv.1 = k then (k, v) else kv)
  else c ++ [(k, v)]

/-- `this.activityStorage.getDayData(dateKey)?.heartbeats || []`
(`AggregationService.ts:210`); an empty heartbeat array is truthy in JS, so
`|| []` only replaces the `null`/`undefined` case. -/
def dayHeartbeats (store : StoreDataM) (today : String) (dateKey : String) :
    List Heartbeat :=
  match getDayData store today (some dateKey) with
  | some dd => dd.heartbeats
  | none => []

/-- `AggregationService.getAggregatedData` (`AggregationService.ts:197-229`):
return the cached entry when present; otherwise generate timeline events
from the day's heartbeats, pair them with the all-zero summary object, cache
and return. -/
def getAggregatedData (store : StoreDataM) (today : String)
    (svc : AggServiceState) (dateKey : String) :
    AggregatedDataM × AggServiceState :=
  match assocLookup svc.cache dateKey with
  | some cachedData => (cachedData, svc)
  | none =>
    let heartbeats := dayHeartbeats store today dateKey
    let timelineEvents := generateTimelineEvents svc.interval heartbeats
    let aggregatedData : AggregatedDataM := ⟨zeroSummary, timelineEvents⟩
    (aggregatedData, { svc with cache := cacheSet svc.cache dateKey aggregatedData })

/-- `AggregationService.aggregateDay` (`AggregationService.ts:168-189`):
recompute events and the real summary and overwrite the cache entry. -/
def aggregateDay (store : StoreDataM) (today : String)
    (svc : AggServiceState) (dateKey : String) : AggServiceState :=
  let heartbeats := dayHeartbeats store today dateKey
  let timelineEvents := generateTimelineEvents svc.interval heartbeats
  let summary := calculateSummary timelineEvents
  { svc with cache := cacheSet svc.cache dateKey ⟨summary, timelineEvents⟩ }

/-- `AggregationService.setAggregationInterval`
(`AggregationService.ts:151-160`): reject values outside {5,10,15};
otherwise update the generator's interval and clear the cache. -/
def setAggregationInterval (svc : AggServiceState) (interval : Int) :
    AggServiceState :=
  if interval ≠ 5 ∧ interval ≠ 10 ∧ interval ≠ 15 then svc
  else { interval := interval, cache := [] }

theorem assocLookup_map_replace {β : Type} (rest : List (String × β))
    (k : String) (v : β) (hsome : (assocLookup rest k).isSome) :
    assocLookup (rest.map fun kv => if kv.1 = k then (k, v) else kv) k =
      some v := by
  induction rest with
  | nil => simp [assocLookup] at hsome
  | cons kv tail ih =>
    obtain ⟨k1, v1⟩ := kv
    by_cases hk : k1 = k
    · subst hk
      have h1 : (if (k1, v1).1 = k1 then (k1, v) else (k1, v1)) = (k1, v) :=
        if_pos rfl
      rw [List.map_cons, h1]
      simp [assocLookup]
    · simp only [List.map_cons]
      have h1 : (if (k1, v1).1 = k then (k, v) else (k1, v1)) = (k1, v1) := by
        simp [hk]
      rw [h1]
      simp only [assocLookup, if_neg hk]
      apply ih
      simpa [assocLookup, hk] using hsome

theorem assocLookup_append_single {β : Type} (rest : List (String × β))
    (k : String) (v : β) :
    assocLookup (rest ++ [(k, v)]) k = some v ∨
      (assocLookup rest k).isSome := by
  induction rest with
  | nil => left; simp [assocLookup]
  | cons kv tail ih =>
    obtain ⟨k1, v1⟩ := kv
    by_cases hk : k1 = k
    · right
      simp [assocLookup, hk]
    · rcases ih with h | h
      · left
        simpa [assocLookup, hk] using h
      · right
        simpa [assocLookup, hk] using h

theorem assocLookup_cacheSet (c : List (String × AggregatedDataM))
    (k : String) (v : AggregatedDataM) :
    assocLookup (cacheSet c k v) k = some v := by
  unfold cacheSet
  by_cases hsome : (assocLookup c k).isSome
  · rw [if_pos hsome]
    exact assocLookup_map_replace c k v hsome
  · rw [if_neg hsome]
    rcases assocLookup_append_single c k v with h | h
    · exact h
    · exact absurd h hsome

/-- **C4 counterexample.** On a cache miss `getAggregatedData` does not
compute the summary via the Aggregator: for a day with one active Chrome
heartbeat it returns the all-zero summary, although `calculateSummary` of
the very timeline events it computed is non-zero. -/
theorem claim_C4_counterexample :
    (getAggregatedData
        ⟨1, 0, 0, 15,
          [("2026-10-11", ⟨[⟨0, ⟨.active, some ⟨"Chrome", "Tab"⟩⟩⟩], none⟩)]⟩
        "2026-10-11" ⟨15, []⟩ "2026-10-11").1.summary = zeroSummary ∧
      calculateSummary
        ((getAggregatedData
          ⟨1, 0, 0, 15,
            [("2026-10-11", ⟨[⟨0, ⟨.active, some ⟨"Chrome", "Tab"⟩⟩⟩], none⟩)]⟩
          "2026-10-11" ⟨15, []⟩ "2026-10-11").1.timelineEvents) ≠ zeroSummary := by
  decide

/-- **C4 (amended).** `getAggregatedData` returns the cached entry when one
is present; otherwise it computes the timeline events via the Aggregator but
pairs them with an all-zero summary (it does not call `calculateSummary`),
stores that in the cache and returns it; `setAggregationInterval` with a
valid value updates the interval and clears the cache, so a subsequent
`getAggregatedData` recomputes the events from the day's heartbeats under
the new interval rather than returning the stale entry. -/
theorem claim_C4_cache_behavior
    (store : StoreDataM) (today k : String)
    (svcH : AggServiceState) (v : AggregatedDataM)
    (hhit : assocLookup svcH.cache k = some v)
    (svcM : AggServiceState) (hmiss : assocLookup svcM.cache k = none)
    (svcI : AggServiceState) (i : Int) (hi : i = 5 ∨ i = 10 ∨ i = 15) :
    getAggregatedData store today svcH k = (v, svcH) ∧
      (getAggregatedData store today svcM k).1.timelineEvents =
        generateTimelineEvents svcM.interval (dayHeartbeats store today k) ∧
      (getAggregatedData store today svcM k).1.summary = zeroSummary ∧
      assocLookup (getAggregatedData store today svcM k).2.cache k =
        some (getAggregatedData store today svcM k).1 ∧
      (setAggregationInterval svcI i).interval = i ∧
      (setAggregationInterval svcI i).cache = [] ∧
      (getAggregatedData store today
          (setAggregationInterval svcI i) k).1.timelineEvents =
        generateTimelineEvents i (dayHeartbeats store today k) := by
  have hset : setAggregationInterval svcI i = ⟨i, []⟩ := by
    unfold setAggregationInterval
    rcases hi with h | h | h <;> simp [h]
  refine ⟨?_, ?_, ?_, ?_, ?_, ?_, ?_⟩
  · simp [getAggregatedData, hhit]
  · simp [getAggregatedData, hmiss]
  · simp [getAggregatedData, hmiss, zeroSummary]
  · simp only [getAggregatedData, hmiss]
    exact assocLookup_cacheSet svcM.cache k _
  · rw [hset]
  · rw [hset]
  · rw [hset]
    simp [getAggregatedData, assocLookup]

theorem claim_C4_cache_behavior_witness :
    getAggregatedData ⟨1, 0, 0, 15, []⟩ "2026-10-11"
        ⟨15, [("2026-10-10", ⟨zeroSummary, []⟩)]⟩ "2026-10-10" =
        (⟨zeroSummary, []⟩, ⟨15, [("2026-10-10", ⟨zeroSummary, []⟩)]⟩) ∧
      (getAggregatedData ⟨1, 0, 0, 15, []⟩ "2026-10-11"
          ⟨15, []⟩ "2026-10-10").1.timelineEvents =
        generateTimelineEvents 15
          (dayHeartbeats ⟨1, 0, 0, 15, []⟩ "2026-10-11" "2026-10-10") ∧
      (getAggregatedData ⟨1, 0, 0, 15, []⟩ "2026-10-11"
          ⟨15, []⟩ "2026-10-10").1.summary = zeroSummary ∧
      assocLookup (getAggregatedData ⟨1, 0, 0, 15, []⟩ "2026-10-11"
          ⟨15, []⟩ "2026-10-10").2.cache "2026-10-10" =
        some (getAggregatedData ⟨1, 0, 0, 15, []⟩ "2026-10-11"
          ⟨15, []⟩ "2026-10-10").1 ∧
      (setAggregationInterval ⟨15, [("2026-10-10", ⟨zeroSummary, []⟩)]⟩ 5).interval =
        5 ∧
      (setAggregationInterval ⟨15, [("2026-10-10", ⟨zeroSummary, []⟩)]⟩ 5).cache =
        [] ∧
      (getAggregatedData ⟨1, 0, 0, 15, []⟩ "2026-10-11"
          (setAggregationInterval ⟨15, [("2026-10-10", ⟨zeroSummary, []⟩)]⟩ 5)
          "2026-10-10").1.timelineEvents =
        generateTimelineEvents 5
          (dayHeartbeats ⟨1, 0, 0, 15, []⟩ "2026-10-11" "2026-10-10") :=
  claim_C4_cache_behavior ⟨1, 0, 0, 15, []⟩ "2026-10-11" "2026-10-10"
    ⟨15, [("2026-10-10", ⟨zeroSummary, []⟩)]⟩ ⟨zeroSummary, []⟩ (by decide)
    ⟨15, []⟩ rfl
    ⟨15, [("2026-10-10", ⟨zeroSummary, []⟩)]⟩ 5 (Or.inl rfl)

/-! ## Facade (`ActivityFacade.ts`) -/

/-- `AggregationService.getDayDataWithAggregation`
(`AggregationService.ts:236-250`).  `getAggregatedData` always returns a
value, so the `!aggregatedData` guard of the source is dead and the result
always carries the heartbeats together with the (possibly cached) timeline
events. -/
def getDayDataWithAggregation (store : StoreDataM) (today : String)
    (svc : AggServiceState) (dateKey : String) :
    (List Heartbeat × List TimelineEventM) × AggServiceState :=
  let heartbeats := dayHeartbeats store today dateKey
  let r := getAggregatedData store today svc dateKey
  ((heartbeats, r.1.timelineEvents), r.2)

/-- `ActivityFacade.getDayData` (`part_003:164-167`): default the key, then
delegate to `getDayDataWithAggregation`.  The declared TS return type is
`DayData | null`, hence the `Option`; the implementation always returns a
value. -/
def facadeGetDayData (store : StoreDataM) (today : String)
    (svc : AggServiceState) (dateKey : Option String) :
    Option (List Heartbeat × List TimelineEventM) × AggServiceState :=
  let effectiveDateKey := jsOrElseKey dateKey today
  let r := getDayDataWithAggregation store today svc effectiveDateKey
  (some r.1, r.2)

/-- **C10 counterexample.** For the valid but unknown key `2020-01-01`
(storage has no data; the Storage Manager returns `null`), a stale cache
entry — as left behind when a cached day is purged — is returned as-is: the
facade yields empty heartbeats but non-empty timeline events, so the two
arrays are not both empty. -/
theorem claim_C10_counterexample :
    getDayData (⟨1, 0, 0, 15, []⟩ : StoreDataM) "2026-10-11"
        (some "2020-01-01") = none ∧
      (facadeGetDayData ⟨1, 0, 0, 15, []⟩ "2026-10-11"
          ⟨15, [("2020-01-01", ⟨zeroSummary,
            [⟨0, 900000, .appWindowEv (some ⟨"Chrome", "Tab"⟩)⟩]⟩)]⟩
          (some "2020-01-01")).1 =
        some ([], [⟨0, 900000, .appWindowEv (some ⟨"Chrome", "Tab"⟩)⟩]) ∧
      ([⟨0, 900000, .appWindowEv (some ⟨"Chrome", "Tab"⟩)⟩] :
        List TimelineEventM) ≠ [] := by
  refine ⟨by decide, by decide, by decide⟩

/-- **C10 (amended).** The facade's `getDayData` never returns `null`: it
always yields an object with a heartbeats array and a timelineEvents array —
unlike the Storage Manager's `getDayData`, which returns `null` for invalid
or unknown keys.  Both arrays are empty for an invalid or unknown key,
provided no stale aggregation-cache entry exists for that key (a cached day
later purged retains its stale events). -/
theorem claim_C10_facade_total
    (store : StoreDataM) (today : String) (svc : AggServiceState)
    (dateKey : Option String)
    (store2 : StoreDataM) (today2 : String) (svc2 : AggServiceState)
    (k2 : String)
    (hk2ne : k2 ≠ "") (hk2bad : isValidDateKeyFormat k2 = false)
    (hk2m : assocLookup svc2.cache k2 = none)
    (store3 : StoreDataM) (today3 : String) (svc3 : AggServiceState)
    (k3 : String)
    (hempty3 : dayHeartbeats store3 today3 k3 = [])
    (hk3m : assocLookup svc3.cache k3 = none) (hk3ne : k3 ≠ "") :
    (facadeGetDayData store today svc dateKey).1.isSome = true ∧
      (facadeGetDayData store2 today2 svc2 (some k2)).1 = some ([], []) ∧
      getDayData store2 today2 (some k2) = none ∧
      (facadeGetDayData store3 today3 svc3 (some k3)).1 = some ([], []) := by
  refine ⟨?_, ?_, ?_, ?_⟩
  · simp [facadeGetDayData]
  · have hhb : dayHeartbeats store2 today2 k2 = [] := by
      simp [dayHeartbeats, getDayData, jsOrElseKey, hk2ne, hk2bad]
    simp [facadeGetDayData, getDayDataWithAggregation, jsOrElseKey, hk2ne,
      getAggregatedData, hk2m, hhb, generateTimelineEvents]
  · simp [getDayData, jsOrElseKey, hk2ne, hk2bad]
  · simp [facadeGetDayData, getDayDataWithAggregation, jsOrElseKey, hk3ne,
      getAggregatedData, hk3m, hempty3, generateTimelineEvents]

theorem claim_C10_facade_total_witness :
    (facadeGetDayData ⟨1, 0, 0, 15, []⟩ "2026-10-11" ⟨15, []⟩
        (some "2026-10-11")).1.isSome = true ∧
      (facadeGetDayData ⟨1, 0, 0, 15, []⟩ "2026-10-11" ⟨15, []⟩
          (some "hello")).1 = some ([], []) ∧
      getDayData ⟨1, 0, 0, 15, []⟩ "2026-10-11" (some "hello") = none ∧
      (facadeGetDayData ⟨1, 0, 0, 15, []⟩ "2026-10-11" ⟨15, []⟩
          (some "2020-01-01")).1 = some ([], []) :=
  claim_C10_facade_total ⟨1, 0, 0, 15, []⟩ "2026-10-11" ⟨15, []⟩
    (some "2026-10-11")
    ⟨1, 0, 0, 15, []⟩ "2026-10-11" ⟨15, []⟩ "hello"
    (by decide) (by decide) rfl
    ⟨1, 0, 0, 15, []⟩ "2026-10-11" ⟨15, []⟩ "2020-01-01"
    (by decide) rfl (by decide)

/-! ## Storage relocation (`ActivityStorage.updateStoragePath`,
`ActivityStorage.ts:346-393`) -/

/-- Content of a file on disk as the adapter will see it. -/
inductive FileContent where
  | valid (v : JValue)
  | invalid

/-- File-system state: files by path, plus the set of existing
directories. -/
structure Fs where
  files : List (String × FileContent)
  dirs : List String

/-- Whether each `fs` call inside the `try` block succeeds; a `false` flag
makes the corresponding call throw. -/
structure FsOps where
  mkdirOk : Bool
  readOk : Bool
  writeOk : Bool
  unlinkOk : Bool

/-- The `ActivityStorage` state touched by `updateStoragePath`: the current
file path, the `SettingsManager`'s stored directory (its source is absent;
`setActivityStoreDirPath` is modelled from the spec as recording the value),
and the `ActivityState` store document (`setData` installs the loaded JSON
as-is). -/
structure StoragePathState where
  dataFilePath : String
  settingsDir : Option String
  store : JValue

def storeFileName : String := "chronflow-activity-store.json"

def pathJoin (dir file : String) : String := dir ++ "/" ++ file

def fsExists (fs : Fs) (p : String) : Bool := (assocLookup fs.files p).isSome

/-- Generic JS-object/`Map` write: replace or append. -/
def assocSet {β : Type} (l : List (String × β)) (k : String) (v : β) :
    List (String × β) :=
  if (assocLookup l k).isSome then
    l.map (fun kv => if kv.1 = k then (k, v) else kv)
  else l ++ [(k, v)]

def fsRemove (files : List (String × FileContent)) (p : String) :
    List (String × FileContent) :=
  files.filter (fun kv => kv.1 != p)

/-- What `StorageAdapter.loadData` yields for the file at `p`. -/
def loadFromFs (fs : Fs) (p : String) : Option JValue :=
  match assocLookup fs.files p with
  | some (.valid v) => loadData p (.parsed v)
  | some .invalid => loadData p .invalidJson
  | none => loadData p .missing

/-- `newDirPath ? path.join(newDirPath, name) : path.join(app.getPath(
'userData'), name)`: the empty string is falsy. -/
def effectiveDir (userDataDir : String) (newDirPath : Option String) :
    String :=
  match newDirPath with
  | some d => if d = "" then userDataDir else d
  | none => userDataDir

/-- The tail of `updateStoragePath` after the migration block
(`ActivityStorage.ts:375-388`): record the new directory in the settings,
repoint `dataFilePath` and the adapter, reload, and install loaded data via
`setData`; returns `true`. -/
def finishUpdate (fs : Fs) (st : StoragePathState) (newDirPath : Option String)
    (newFilePath : String) : Bool × Fs × StoragePathState :=
  let st1 := { st with settingsDir := newDirPath, dataFilePath := newFilePath }
  let st2 :=
    match loadFromFs fs newFilePath with
    | some v => { st1 with store := v }
    | none => st1
  (true, fs, st2)

/-- `mkdirSync` when the directory is absent (`ActivityStorage.ts:361-363`). -/
def mkdirFs (fs : Fs) (d : String) : Fs :=
  if fs.dirs.contains d then fs else ⟨fs.files, fs.dirs ++ [d]⟩

/-- `writeFileSync` (`ActivityStorage.ts:367`). -/
def writeFs (fs : Fs) (p : String) (c : FileContent) : Fs :=
  ⟨assocSet fs.files p c, fs.dirs⟩

/-- `unlinkSync` (`ActivityStorage.ts:371`). -/
def removeFileFs (fs : Fs) (p : String) : Fs :=
  ⟨fsRemove fs.files p, fs.dirs⟩

/-- `ActivityStorage.updateStoragePath` (`ActivityStorage.ts:346-393`).
Mutations performed before a throwing `fs` call persist (the `catch` only
logs and returns `false`); `this.*` assignments all happen after the file
operations, so a file-op failure leaves the `StoragePathState` untouched. -/
def updateStoragePath (userDataDir : String) (ops : FsOps) (fs : Fs)
    (st : StoragePathState) (newDirPath : Option String) :
    Bool × Fs × StoragePathState :=
  if fsExists fs st.dataFilePath &&
      ! fsExists fs
        (pathJoin (effectiveDir userDataDir newDirPath) storeFileName) then
    if ! fs.dirs.contains (effectiveDir userDataDir newDirPath) &&
        ! ops.mkdirOk then
      (false, fs, st)
    else
      if ! ops.readOk then
        (false, mkdirFs fs (effectiveDir userDataDir newDirPath), st)
      else
        match assocLookup fs.files st.dataFilePath with
        | none => (false, mkdirFs fs (effectiveDir userDataDir newDirPath), st)
        | some content =>
          if ! ops.writeOk then
            (false, mkdirFs fs (effectiveDir userDataDir newDirPath), st)
          else
            if st.dataFilePath ≠
                pathJoin (effectiveDir userDataDir newDirPath) storeFileName then
              if ! ops.unlinkOk then
                (false,
                  writeFs (mkdirFs fs (effectiveDir userDataDir newDirPath))
                    (pathJoin (effectiveDir userDataDir newDirPath) storeFileName)
                    content,
                  st)
              else
                finishUpdate
                  (removeFileFs
                    (writeFs (mkdirFs fs (effectiveDir userDataDir newDirPath))
                      (pathJoin (effectiveDir userDataDir newDirPath)
                        storeFileName)
                      content)
                    st.dataFilePath)
                  st newDirPath
                  (pathJoin (effectiveDir userDataDir newDirPath) storeFileName)
            else
              finishUpdate
                (writeFs (mkdirFs fs (effectiveDir userDataDir newDirPath))
                  (pathJoin (effectiveDir userDataDir newDirPath) storeFileName)
                  content)
                st newDirPath
                (pathJoin (effectiveDir userDataDir newDirPath) storeFileName)
  else
    finishUpdate fs st newDirPath
      (pathJoin (effectiveDir userDataDir newDirPath) storeFileName)

theorem assocLookup_assocSet {β : Type} (l : List (String × β)) (k : String)
    (v : β) : assocLookup (assocSet l k v) k = some v := by
  unfold assocSet
  by_cases hsome : (assocLookup l k).isSome
  · rw [if_pos hsome]
    exact assocLookup_map_replace l k v hsome
  · rw [if_neg hsome]
    rcases assocLookup_append_single l k v with h | h
    · exact h
    · exact absurd h hsome

theorem assocLookup_fsRemove_ne (files : List (String × FileContent))
    (p q : String) (h : p ≠ q) :
    assocLookup (fsRemove files q) p = assocLookup files p := by
  induction files with
  | nil => rfl
  | cons kv rest ih =>
    obtain ⟨k1, v1⟩ := kv
    by_cases hq : k1 = q
    · subst hq
      have hne : ¬ k1 = p := fun hc => h (hc ▸ rfl)
      simp [fsRemove, assocLookup, hne] at ih ⊢
      simpa [fsRemove] using ih
    · by_cases hp : k1 = p
      · simp only [fsRemove, List.filter_cons]
        rw [show ((k1, v1).1 != q) = true by simp [hq]]
        simp [assocLookup, hp]
      · simp only [fsRemove, List.filter_cons]
        rw [show ((k1, v1).1 != q) = true by simp [hq]]
        simp only [assocLookup, if_neg hp]
        simpa [fsRemove] using ih

theorem assocLookup_fsRemove_self (files : List (String × FileContent))
    (q : String) : assocLookup (fsRemove files q) q = none := by
  induction files with
  | nil => rfl
  | cons kv rest ih =>
    obtain ⟨k1, v1⟩ := kv
    by_cases hq : k1 = q
    · subst hq
      simpa [fsRemove] using ih
    · simp only [fsRemove, List.filter_cons]
      rw [show ((k1, v1).1 != q) = true by simp [hq]]
      simp only [assocLookup, if_neg hq]
      simpa [fsRemove] using ih

theorem finishUpdate_spec (fs : Fs) (st : StoragePathState)
    (dir : Option String) (newPath : String) :
    (finishUpdate fs st dir newPath).1 = true ∧
      (finishUpdate fs st dir newPath).2.1 = fs ∧
      (finishUpdate fs st dir newPath).2.2.dataFilePath = newPath ∧
      (finishUpdate fs st dir newPath).2.2.settingsDir = dir ∧
      (finishUpdate fs st dir newPath).2.2.store =
        (loadFromFs fs newPath).getD st.store := by
  unfold finishUpdate
  cases h : loadFromFs fs newPath <;> simp [h]

theorem updateStoragePath_migrate (ud : String) (fs : Fs)
    (st : StoragePathState) (dir : Option String) (content : FileContent)
    (hold : assocLookup fs.files st.dataFilePath = some content)
    (hnew : fsExists fs (pathJoin (effectiveDir ud dir) storeFileName) = false)
    (hne : st.dataFilePath ≠ pathJoin (effectiveDir ud dir) storeFileName) :
    updateStoragePath ud ⟨true, true, true, true⟩ fs st dir =
      finishUpdate
        (removeFileFs
          (writeFs (mkdirFs fs (effectiveDir ud dir))
            (pathJoin (effectiveDir ud dir) storeFileName) content)
          st.dataFilePath)
        st dir (pathJoin (effectiveDir ud dir) storeFileName) := by
  have hex : fsExists fs st.dataFilePath = true := by simp [fsExists, hold]
  unfold updateStoragePath
  rw [if_pos (by rw [hex, hnew]; rfl)]
  rw [if_neg (by simp)]
  simp only [Bool.not_true, Bool.false_eq_true, if_false, hold, if_pos hne]

theorem updateStoragePath_noMigrate (ud : String) (ops : FsOps) (fs : Fs)
    (st : StoragePathState) (dir : Option String)
    (hno : (fsExists fs st.dataFilePath &&
      ! fsExists fs (pathJoin (effectiveDir ud dir) storeFileName)) = false) :
    updateStoragePath ud ops fs st dir =
      finishUpdate fs st dir (pathJoin (effectiveDir ud dir) storeFileName) := by
  unfold updateStoragePath
  rw [if_neg (by simp [hno])]

theorem updateStoragePath_cases (ud : String) (ops : FsOps) (fs : Fs)
    (st : StoragePathState) (dir : Option String) :
    (updateStoragePath ud ops fs st dir).1 = true ∨
      (updateStoragePath ud ops fs st dir).2.2 = st := by
  unfold updateStoragePath
  by_cases h0 : (fsExists fs st.dataFilePath &&
      ! fsExists fs
        (pathJoin (effectiveDir ud dir) storeFileName)) = true
  case neg =>
    rw [if_neg h0]
    left
    exact (finishUpdate_spec _ _ _ _).1
  case pos =>
    rw [if_pos h0]
    by_cases h1 : (! fs.dirs.contains (effectiveDir ud dir) &&
        ! ops.mkdirOk) = true
    case pos =>
      rw [if_pos h1]
      right
      rfl
    case neg =>
      rw [if_neg h1]
      by_cases h2 : (! ops.readOk) = true
      case pos =>
        rw [if_pos h2]
        right
        rfl
      case neg =>
        rw [if_neg h2]
        cases hm : assocLookup fs.files st.dataFilePath with
        | none =>
          right
          rfl
        | some content =>
          dsimp only
          by_cases h3 : (! ops.writeOk) = true
          case pos =>
            rw [if_pos h3]
            right
            rfl
          case neg =>
            rw [if_neg h3]
            by_cases h4 : st.dataFilePath ≠
                pathJoin (effectiveDir ud dir) storeFileName
            case pos =>
              rw [if_pos h4]
              by_cases h5 : (! ops.unlinkOk) = true
              case pos =>
                rw [if_pos h5]
                right
                rfl
              case neg =>
                rw [if_neg h5]
                left
                exact (finishUpdate_spec _ _ _ _).1
            case neg =>
              rw [if_neg h4]
              left
              exact (finishUpdate_spec _ _ _ _).1

/-- **C9 counterexample.** `updateStoragePath` does not leave all prior
state unchanged on an I/O failure: when the copy succeeds and the removal of
the old file throws, the call returns `false` but the new file has been
created — the file system differs from the prior state. -/
theorem claim_C9_counterexample :
    (updateStoragePath "ud" ⟨true, true, true, false⟩
        ⟨[("old/chronflow-activity-store.json", .valid (.num 1))],
          ["old", "new"]⟩
        ⟨"old/chronflow-activity-store.json", none, .null⟩ (some "new")).1 =
      false ∧
      fsExists
        (updateStoragePath "ud" ⟨true, true, true, false⟩
          ⟨[("old/chronflow-activity-store.json", .valid (.num 1))],
            ["old", "new"]⟩
          ⟨"old/chronflow-activity-store.json", none, .null⟩ (some "new")).2.1
        "new/chronflow-activity-store.json" = true ∧
      fsExists
        ⟨[("old/chronflow-activity-store.json", .valid (.num 1))],
          ["old", "new"]⟩
        "new/chronflow-activity-store.json" = false := by
  refine ⟨rfl, rfl, rfl⟩

theorem mkdirFs_files (fs : Fs) (d : String) : (mkdirFs fs d).files = fs.files := by
  unfold mkdirFs
  split <;> rfl

/-- **C9 (amended).** `updateStoragePath` computes the new file path (fixed
filename under the new directory, or the platform default user-data
directory when the argument is null/empty), copies then removes the old file
only when the old file exists and the new one does not, repoints the adapter
and settings, and installs data found at the new location.  On an I/O
failure it returns `false` and the file path, settings and in-memory store
are unchanged — but file-system effects already performed (directory
creation, the copied file) persist; no rollback is attempted. -/
theorem claim_C9_update_storage_frame
    (udA : String) (fsA : Fs) (stA : StoragePathState) (dirA : Option String)
    (contentA : FileContent)
    (holdA : assocLookup fsA.files stA.dataFilePath = some contentA)
    (hnewA : fsExists fsA (pathJoin (effectiveDir udA dirA) storeFileName) =
      false)
    (hneA : stA.dataFilePath ≠ pathJoin (effectiveDir udA dirA) storeFileName)
    (udB : String) (opsB : FsOps) (fsB : Fs) (stB : StoragePathState)
    (dirB : Option String)
    (hnoB : (fsExists fsB stB.dataFilePath &&
      ! fsExists fsB (pathJoin (effectiveDir udB dirB) storeFileName)) =
      false)
    (udC : String) (opsC : FsOps) (fsC : Fs) (stC : StoragePathState)
    (dirC : Option String)
    (hfailC : (updateStoragePath udC opsC fsC stC dirC).1 = false) :
    (updateStoragePath udA ⟨true, true, true, true⟩ fsA stA dirA).1 = true ∧
      (updateStoragePath udA ⟨true, true, true, true⟩ fsA stA
        dirA).2.2.dataFilePath =
        pathJoin (effectiveDir udA dirA) storeFileName ∧
      (updateStoragePath udA ⟨true, true, true, true⟩ fsA stA
        dirA).2.2.settingsDir = dirA ∧
      assocLookup
        (updateStoragePath udA ⟨true, true, true, true⟩ fsA stA
          dirA).2.1.files
        (pathJoin (effectiveDir udA dirA) storeFileName) = some contentA ∧
      fsExists (updateStoragePath udA ⟨true, true, true, true⟩ fsA stA
        dirA).2.1 stA.dataFilePath = false ∧
      (updateStoragePath udA ⟨true, true, true, true⟩ fsA stA dirA).2.2.store =
        (loadFromFs
          (updateStoragePath udA ⟨true, true, true, true⟩ fsA stA dirA).2.1
          (pathJoin (effectiveDir udA dirA) storeFileName)).getD stA.store ∧
      (updateStoragePath udB opsB fsB stB dirB).1 = true ∧
      (updateStoragePath udB opsB fsB stB dirB).2.1 = fsB ∧
      (updateStoragePath udB opsB fsB stB dirB).2.2.dataFilePath =
        pathJoin (effectiveDir udB dirB) storeFileName ∧
      (updateStoragePath udB opsB fsB stB dirB).2.2.settingsDir = dirB ∧
      (updateStoragePath udB opsB fsB stB dirB).2.2.store =
        (loadFromFs fsB
          (pathJoin (effectiveDir udB dirB) storeFileName)).getD stB.store ∧
      (updateStoragePath udC opsC fsC stC dirC).2.2 = stC := by
  have hmig := updateStoragePath_migrate udA fsA stA dirA contentA holdA
    hnewA hneA
  have hnomig := updateStoragePath_noMigrate udB opsB fsB stB dirB hnoB
  have hAspec := finishUpdate_spec
    (removeFileFs
      (writeFs (mkdirFs fsA (effectiveDir udA dirA))
        (pathJoin (effectiveDir udA dirA) storeFileName) contentA)
      stA.dataFilePath)
    stA dirA (pathJoin (effectiveDir udA dirA) storeFileName)
  have hBspec := finishUpdate_spec fsB stB dirB
    (pathJoin (effectiveDir udB dirB) storeFileName)
  have hAfiles : (updateStoragePath udA ⟨true, true, true, true⟩ fsA stA
      dirA).2.1.files =
      fsRemove
        (assocSet fsA.files (pathJoin (effectiveDir udA dirA) storeFileName)
          contentA) stA.dataFilePath := by
    rw [hmig, hAspec.2.1]
    show (removeFileFs
      (writeFs (mkdirFs fsA (effectiveDir udA dirA))
        (pathJoin (effectiveDir udA dirA) storeFileName) contentA)
      stA.dataFilePath).files = _
    unfold removeFileFs writeFs
    rw [mkdirFs_files]
  refine ⟨?_, ?_, ?_, ?_, ?_, ?_, ?_, ?_, ?_, ?_, ?_, ?_⟩
  · rw [hmig]; exact hAspec.1
  · rw [hmig]; exact hAspec.2.2.1
  · rw [hmig]; exact hAspec.2.2.2.1
  · rw [hAfiles,
      assocLookup_fsRemove_ne _ _ _ (Ne.symm hneA),
      assocLookup_assocSet]
  · unfold fsExists
    rw [hAfiles, assocLookup_fsRemove_self]
    rfl
  · rw [hmig]
    rw [hmig] at hAfiles
    exact hAspec.2.2.2.2
  · rw [hnomig]; exact hBspec.1
  · rw [hnomig]; exact hBspec.2.1
  · rw [hnomig]; exact hBspec.2.2.1
  · rw [hnomig]; exact hBspec.2.2.2.1
  · rw [hnomig]; exact hBspec.2.2.2.2
  · rcases updateStoragePath_cases udC opsC fsC stC dirC with h | h
    · rw [h] at hfailC
      cases hfailC
    · exact h

theorem claim_C9_update_storage_frame_witness :
    (updateStoragePath "ud" ⟨true, true, true, true⟩
        ⟨[("old/chronflow-activity-store.json", .valid (.num 1))],
          ["old", "new"]⟩
        ⟨"old/chronflow-activity-store.json", none, .null⟩ (some "new")).1 =
      true ∧
      (updateStoragePath "ud" ⟨true, true, true, true⟩
        ⟨[("old/chronflow-activity-store.json", .valid (.num 1))],
          ["old", "new"]⟩
        ⟨"old/chronflow-activity-store.json", none, .null⟩
        (some "new")).2.2.dataFilePath =
        pathJoin (effectiveDir "ud" (some "new")) storeFileName ∧
      (updateStoragePath "ud" ⟨true, true, true, true⟩
        ⟨[("old/chronflow-activity-store.json", .valid (.num 1))],
          ["old", "new"]⟩
        ⟨"old/chronflow-activity-store.json", none, .null⟩
        (some "new")).2.2.settingsDir = some "new" ∧
      assocLookup
        (updateStoragePath "ud" ⟨true, true, true, true⟩
          ⟨[("old/chronflow-activity-store.json", .valid (.num 1))],
            ["old", "new"]⟩
          ⟨"old/chronflow-activity-store.json", none, .null⟩
          (some "new")).2.1.files
        (pathJoin (effectiveDir "ud" (some "new")) storeFileName) =
        some (.valid (.num 1)) ∧
      fsExists
        (updateStoragePath "ud" ⟨true, true, true, true⟩
          ⟨[("old/chronflow-activity-store.json", .valid (.num 1))],
            ["old", "new"]⟩
          ⟨"old/chronflow-activity-store.json", none, .null⟩
          (some "new")).2.1 "old/chronflow-activity-store.json" = false ∧
      (updateStoragePath "ud" ⟨true, true, true, true⟩
        ⟨[("old/chronflow-activity-store.json", .valid (.num 1))],
          ["old", "new"]⟩
        ⟨"old/chronflow-activity-store.json", none, .null⟩
        (some "new")).2.2.store =
        (loadFromFs
          (updateStoragePath "ud" ⟨true, true, true, true⟩
            ⟨[("old/chronflow-activity-store.json", .valid (.num 1))],
              ["old", "new"]⟩
            ⟨"old/chronflow-activity-store.json", none, .null⟩
            (some "new")).2.1
          (pathJoin (effectiveDir "ud" (some "new"))
            storeFileName)).getD JValue.null ∧
      (updateStoragePath "ud" ⟨true, true, true, true⟩ ⟨[], []⟩
        ⟨"x", none, .null⟩ none).1 = true ∧
      (updateStoragePath "ud" ⟨true, true, true, true⟩ ⟨[], []⟩
        ⟨"x", none, .null⟩ none).2.1 = ⟨[], []⟩ ∧
      (updateStoragePath "ud" ⟨true, true, true, true⟩ ⟨[], []⟩
        ⟨"x", none, .null⟩ none).2.2.dataFilePath =
        pathJoin (effectiveDir "ud" none) storeFileName ∧
      (updateStoragePath "ud" ⟨true, true, true, true⟩ ⟨[], []⟩
        ⟨"x", none, .null⟩ none).2.2.settingsDir = none ∧
      (updateStoragePath "ud" ⟨true, true, true, true⟩ ⟨[], []⟩
        ⟨"x", none, .null⟩ none).2.2.store =
        (loadFromFs ⟨[], []⟩
          (pathJoin (effectiveDir "ud" none) storeFileName)).getD JValue.null ∧
      (updateStoragePath "ud" ⟨true, true, true, false⟩
        ⟨[("old/chronflow-activity-store.json", .valid (.num 1))],
          ["old", "new"]⟩
        ⟨"old/chronflow-activity-store.json", none, .null⟩ (some "new")).2.2 =
        ⟨"old/chronflow-activity-store.json", none, .null⟩ :=
  claim_C9_update_storage_frame "ud"
    ⟨[("old/chronflow-activity-store.json", .valid (.num 1))], ["old", "new"]⟩
    ⟨"old/chronflow-activity-store.json", none, .null⟩ (some "new")
    (.valid (.num 1)) rfl rfl (by decide)
    "ud" ⟨true, true, true, true⟩ ⟨[], []⟩ ⟨"x", none, .null⟩ none rfl
    "ud" ⟨true, true, true, false⟩
    ⟨[("old/chronflow-activity-store.json", .valid (.num 1))], ["old", "new"]⟩
    ⟨"old/chronflow-activity-store.json", none, .null⟩ (some "new") rfl
